import Mathlib

/-!
# tlm (Tizen Login Manager): configuration store, seat and session

A shallow embedding of `src/tlm-config.c`, `src/daemon/tlm-seat.c` and
`src/daemon/tlm-session.c`.

Conventions of the embedding:

* a `gchar *` that may be `NULL` is an `Option String`; the string is the text
  before the terminating NUL;
* the code reads its strings byte by byte: a character of a string stands for
  one byte, the one of its code, which for ASCII text is the text itself. Where
  a library reads text of more than one byte to the character (the regular
  expression of the command line), the definition is given on ASCII and the
  statements that compare with a rule of the specification are for ASCII text;
* a `GHashTable` is an association list with at most one entry per key;
* a run that dereferences `NULL`, reads past a string terminator, or leaves the
  daemon process (the child side of `fork`) ends in `Except.error`;
* what the daemon cannot decide by itself (the authentication module, `fork`,
  the observers of a GObject signal) is an explicit argument of the function
  that consults it.
-/

namespace Tlm

/-! ## C library functions used by the sources -/

/-- The C-locale `isspace`. -/
def isspace (c : Char) : Bool :=
  c = ' ' || c = '\t' || c = '\n' || c = '\x0b' || c = '\x0c' || c = '\r'

/-- Value of the leading run of decimal digits of a text, read left to right
on top of the accumulator. -/
def digits_value : Nat → List Char → Nat
  | acc, [] => acc
  | acc, c :: cs =>
    if c.isDigit then digits_value (acc * 10 + (c.toNat - '0'.toNat)) cs else acc

def LONG_MAX : Int := 2 ^ 63 - 1

def LONG_MIN : Int := -(2 ^ 63)

/-- The glibc `strtol (s, NULL, 10)`: leading white space, an optional sign, a
run of digits; the result saturates at the ends of `long`. -/
def strtol (s : List Char) : Int :=
  match s.dropWhile isspace with
  | [] => 0
  | c :: r =>
    if c = '-' then max LONG_MIN (-(digits_value 0 r : Int))
    else if c = '+' then min LONG_MAX (digits_value 0 r : Int)
    else min LONG_MAX (digits_value 0 (c :: r) : Int)

/-- Conversion of a `long` to `int`: the low 32 bits, two's complement. -/
def long_to_int (v : Int) : Int := (v + 2 ^ 31) % 2 ^ 32 - 2 ^ 31

/-- The glibc `atoi`, which is `(int) strtol (s, NULL, 10)`. -/
def atoi (s : List Char) : Int := long_to_int (strtol s)

/-- Text produced by the `printf` conversion `%d`. -/
def printf_d (n : Int) : List Char := (toString n).data

/-- `strncmp (s, "seat", 4) == 0`. -/
def starts_with_seat (s : List Char) : Bool := s.take 4 = ['s', 'e', 'a', 't']

/-- The text is ASCII: every character is one byte below 128, so that its
characters and its bytes are the same under every encoding. -/
def is_ascii (s : List Char) : Bool := s.all (fun c => decide (c.toNat < 128))

/-- The bytes of the UTF-8 encoding of a character. -/
def utf8_bytes (c : Char) : List Nat :=
  if c.toNat < 0x80 then [c.toNat]
  else if c.toNat < 0x800 then [0xC0 + c.toNat / 64, 0x80 + c.toNat % 64]
  else if c.toNat < 0x10000 then
    [0xE0 + c.toNat / 4096, 0x80 + c.toNat / 64 % 64, 0x80 + c.toNat % 64]
  else
    [0xF0 + c.toNat / 262144, 0x80 + c.toNat / 4096 % 64, 0x80 + c.toNat / 64 % 64,
     0x80 + c.toNat % 64]

/-- The C string that holds a text in UTF-8: one character for each byte of
the encoding. An ASCII text is its own C string. -/
def c_string (text : String) : String :=
  String.mk (text.data.flatMap (fun c => (utf8_bytes c).map Char.ofNat))

/-! ## GHashTable -/

/-- `g_hash_table_lookup`: the value stored under the key, if any. -/
def g_hash_table_lookup {κ ν : Type} [DecidableEq κ] : List (κ × ν) → κ → Option ν
  | [], _ => none
  | (k, v) :: rest, key => if k = key then some v else g_hash_table_lookup rest key

/-- `g_hash_table_remove`: drops the entry stored under the key. -/
def g_hash_table_remove {κ ν : Type} [DecidableEq κ] : List (κ × ν) → κ → List (κ × ν)
  | [], _ => []
  | (k, v) :: rest, key =>
    if k = key then g_hash_table_remove rest key else (k, v) :: g_hash_table_remove rest key

/-- `g_hash_table_insert`: stores the value under the key, replacing the
value of an entry that is already there. -/
def g_hash_table_insert {κ ν : Type} [DecidableEq κ] : List (κ × ν) → κ → ν → List (κ × ν)
  | [], key, val => [(key, val)]
  | (k, v) :: rest, key, val =>
    if k = key then (k, val) :: rest else (k, v) :: g_hash_table_insert rest key val

/-! ## Configuration store (`tlm-config.c`) -/

/-- Modelled from the spec: the header `tlm-config-general.h` with the group
and key names is not among the sources; §4.1 of the specification gives the
names as strings. -/
def TLM_CONFIG_GENERAL : String := "General"

/-- Modelled from the spec: key name of the default PAM service (§4.1), the
header that defines the macro is not among the sources. -/
def TLM_CONFIG_GENERAL_PAM_SERVICE : String := "PAMService"

/-- Modelled from the spec: key name of the default user template (§4.1), the
header that defines the macro is not among the sources. -/
def TLM_CONFIG_GENERAL_DEFAULT_USER : String := "DefaultUser"

/-- Modelled from the spec: key name of the relogin policy (§4.1), the header
that defines the macro is not among the sources. -/
def TLM_CONFIG_GENERAL_AUTO_LOGIN : String := "AutoLogin"

/-- The private part of `TlmConfig`: `config_table` maps a group name to the
table of that group, which maps a key to a string `GVariant`. -/
structure TlmConfig where
  config_table : List (String × List (String × String))
  deriving DecidableEq, Repr

/-- `tlm_config_get_group`. -/
def tlm_config_get_group (self : TlmConfig) (group : Option String) :
    Option (List (String × String)) :=
  match group with
  | none => none
  | some g => if g = "" then none else g_hash_table_lookup self.config_table g

/-- `tlm_config_get_value`. -/
def tlm_config_get_value (self : TlmConfig) (group key : Option String) : Option String :=
  match key with
  | none => none
  | some k =>
    if k = "" then none
    else
      match tlm_config_get_group self group with
      | none => none
      | some group_table => g_hash_table_lookup group_table k

/-- `tlm_config_get_string`. -/
def tlm_config_get_string (self : TlmConfig) (group key : Option String) : Option String :=
  match key with
  | none => none
  | some k =>
    if k = "" then none
    else
      match tlm_config_get_value self group (some k) with
      | none => none
      | some value => some value

/-- Modelled from the spec: `tlm_config_get_boolean` is called by the seat and
the session but is not among the sources. §4.1 gives
`get_bool(group, key, default)` over the string store, a missing key yielding
the default; how a stored string reads as a boolean is the argument `as_bool`. -/
def tlm_config_get_boolean (as_bool : String → Bool) (self : TlmConfig)
    (group key : Option String) (retval : Bool) : Bool :=
  match tlm_config_get_string self group key with
  | none => retval
  | some s => as_bool s

/-! ## Ways a run leaves the model -/

/-- Reasons for which a run of the daemon code has no defined result. -/
inductive Abort where
  /-- a `NULL` pointer is dereferenced -/
  | null_pointer
  /-- a scan moves past the terminator of its string -/
  | past_terminator
  /-- `fork` returned 0: this is the child process, not the daemon -/
  | forked_child
  deriving DecidableEq, Repr

deriving instance DecidableEq for Except

/-! ## Default user name (`tlm-seat.c`) -/

/-- The `while` loop of `_build_user_name`: `str` is the text built so far,
the list is what `pptr` still has before it up to the terminator. `pptr` moves
by bytes: an element of the list is one byte of the template, and after a `%`
one byte is skipped. -/
def build_user_name_loop (seat_num : Int) (seat_id : List Char) :
    List Char → List Char → Except Abort (List Char)
  | str, [] => .ok str
  | str, c :: rest =>
    if c = '%' then
      match rest with
      | [] => .error .past_terminator
      | x :: rest' =>
        if x = 'S' then build_user_name_loop seat_num seat_id (str ++ printf_d seat_num) rest'
        else if x = 'I' then build_user_name_loop seat_num seat_id (str ++ seat_id) rest'
        else build_user_name_loop seat_num seat_id str rest'
    else build_user_name_loop seat_num seat_id (str ++ [c]) rest

/-- `_build_user_name`. The strings are read by their bytes, one character
standing for one byte. -/
def _build_user_name (template seat_id : Option String) : Except Abort String :=
  match seat_id with
  | none => .error .null_pointer
  | some id =>
    let seat_num : Int := if starts_with_seat id.data then atoi (id.data.drop 4) else 0
    match template with
    | none => .error .null_pointer
    | some t =>
      match build_user_name_loop seat_num id.data [] t.data with
      | .error e => .error e
      | .ok str => .ok (String.mk str)

/-! ### The substitution as the specification words it -/

/-- The number following the prefix `seat` in a seat id, 0 when the id does
not start with `seat`. -/
def seat_number_ref (seat_id : String) : Nat :=
  if seat_id.data.take 4 = "seat".data then digits_value 0 (seat_id.data.drop 4) else 0

/-- The template copied left to right: `%S` becomes the seat number in decimal,
`%I` the seat id, any other `%X` is dropped, every other character is kept. -/
def build_name_ref_chars (seat_id : String) : List Char → List Char
  | [] => []
  | [c] => [c]
  | c :: x :: rest =>
    if c = '%' then
      if x = 'S' then (toString (seat_number_ref seat_id)).data ++ build_name_ref_chars seat_id rest
      else if x = 'I' then seat_id.data ++ build_name_ref_chars seat_id rest
      else build_name_ref_chars seat_id rest
    else c :: build_name_ref_chars seat_id (x :: rest)

/-- The reference of §4.5 on strings. -/
def build_name_ref (template seat_id : String) : String :=
  String.mk (build_name_ref_chars seat_id template.data)

/-! ## Child reaper (`tlm-session.c`) -/

/-- The GLib cast `GUINT_TO_POINTER` applied to a `pid_t`, pointers being 64 bits wide. -/
def GUINT_TO_POINTER (u : Int) : Nat := (u % 2 ^ 64).toNat

/-- The GLib cast `GINT_TO_POINTER`, pointers being 64 bits wide. -/
def GINT_TO_POINTER (i : Int) : Nat := (i % 2 ^ 64).toNat

/-- The GLib cast `GPOINTER_TO_INT`: the low 32 bits of the pointer as an `int`. -/
def GPOINTER_TO_INT (p : Nat) : Int := long_to_int (p : Int)

def SIGHUP : Int := 1

def SIGTERM : Int := 15

def SIGCHLD : Int := 17

/-- The static `notify_table`: keys and values are pointer-sized integers
(`g_direct_hash`, `g_direct_equal`), a key being a child pid and a value the
descriptor to notify. -/
abbrev NotifyTable := List (Nat × Nat)

/-- `_signal_action`: the table it leaves and the `write` calls it makes, each
as (descriptor, pid written). The result of `write` is only logged. -/
def _signal_action (signal_no : Int) (si_pid : Int) (notify_table : NotifyTable) :
    NotifyTable × List (Int × Int) :=
  if signal_no = SIGCHLD then
    let notify_ptr : Nat :=
      match g_hash_table_lookup notify_table (GUINT_TO_POINTER si_pid) with
      | none => 0
      | some p => p
    if notify_ptr = 0 then (notify_table, [])
    else (g_hash_table_remove notify_table notify_ptr, [(GPOINTER_TO_INT notify_ptr, si_pid)])
  else (notify_table, [])

/-! ## Session (`tlm-session.c`) -/

/-- The private part of `TlmSession` as the daemon process holds it. The
snapshot of the terminal owner (`tty_uid`, `tty_gid`) is left out: only
`tlm_session_reset_tty` reads it. `auth_session` tells whether the session
owns an authentication session object. -/
structure TlmSession where
  config : TlmConfig
  notify_fd : Int
  child_pid : Int
  seat_id : Option String
  service : Option String
  username : Option String
  env_hash : Option (List (String × String))
  auth_session : Bool
  deriving DecidableEq, Repr

/-- Signal that the authentication session emits while it is started. -/
inductive AuthSignal where
  | nothing
  | auth_error
  | session_error
  /-- `session-created`; `username` is what `tlm_auth_session_get_username`
  answers and `fork_result` what `fork` returns to the callback -/
  | session_created (username : Option String) (fork_result : Int)
  deriving DecidableEq, Repr

/-- What the authentication module, which is outside these sources, does for
one session: whether `tlm_auth_session_new` returns an object, the signal
emitted during `tlm_auth_session_start`, and the value that call returns. -/
structure AuthRun where
  created : Bool
  signal : AuthSignal
  started : Bool
  deriving DecidableEq, Repr

/-- Calls and GObject signals of the seat and the session that an observer of
the daemon can see. -/
inductive Event where
  /-- signal `prepare-user` -/
  | prepare_user (name : String)
  /-- signal `session-terminated` -/
  | session_terminated (seat_id : Option String)
  /-- `tlm_session_new` is called with these arguments -/
  | session_new (seat_id service username password : Option String)
  /-- `fork` is called and returns this value -/
  | fork (result : Int)
  /-- the reference to a session is released -/
  | session_unref (session : TlmSession)
  /-- `kill (pid, sig)` -/
  | kill (pid : Int) (sig : Int)
  deriving DecidableEq, Repr

/-- `_session_on_session_created` up to the end of the parent branch. -/
def _session_on_session_created (auth_username : Option String) (fork_result : Int)
    (notify_table : NotifyTable) (priv : TlmSession) :
    Except Abort (TlmSession × NotifyTable) :=
  let priv : TlmSession :=
    match priv.username with
    | none => { priv with username := auth_username }
    | some _ => priv
  let priv : TlmSession := { priv with child_pid := fork_result }
  if priv.child_pid ≠ 0 then
    .ok (priv, g_hash_table_insert notify_table (GUINT_TO_POINTER priv.child_pid)
                 (GINT_TO_POINTER priv.notify_fd))
  else .error .forked_child

/-- `_start_session`: the session, the reaper table, the events and the
returned flag. -/
def _start_session (run : AuthRun) (notify_table : NotifyTable) (session : TlmSession)
    (_password : Option String) :
    Except Abort (TlmSession × NotifyTable × List Event × Bool) :=
  if run.created = false then .ok (session, notify_table, [], false)
  else
    let session : TlmSession := { session with auth_session := true }
    match run.signal with
    | .session_created auth_username fork_result =>
      match _session_on_session_created auth_username fork_result notify_table session with
      | .error e => .error e
      | .ok (session, notify_table) =>
        .ok (session, notify_table, [Event.fork fork_result], run.started)
    | _ => .ok (session, notify_table, [], run.started)

/-- `tlm_session_new`. -/
def tlm_session_new (run : AuthRun) (notify_table : NotifyTable) (config : TlmConfig)
    (seat_id service username password : Option String)
    (environment : Option (List (String × String))) (notify_fd : Int) :
    Except Abort (Option TlmSession × NotifyTable × List Event) :=
  let session : TlmSession :=
    { config := config, notify_fd := notify_fd, child_pid := 0, seat_id := seat_id,
      service := service, username := username, env_hash := environment,
      auth_session := false }
  match _start_session run notify_table session password with
  | .error e => .error e
  | .ok (session, notify_table, events, started) =>
    if started then
      .ok (some session, notify_table,
           Event.session_new seat_id service username password :: events)
    else
      .ok (none, notify_table,
           Event.session_new seat_id service username password :: events
             ++ [Event.session_unref session])

/-- `tlm_session_terminate`. -/
def tlm_session_terminate (session : TlmSession) : List Event :=
  [Event.kill session.child_pid SIGHUP, Event.kill session.child_pid SIGTERM]

/-! ## Seat (`tlm-seat.c`) -/

/-- The private part of `TlmSeat`; `notify_fd` is the pair of pipe ends. -/
structure TlmSeat where
  config : TlmConfig
  id : Option String
  path : Option String
  next_service : Option String
  next_user : Option String
  next_password : Option String
  session : Option TlmSession
  notify_fd : Int × Int
  deriving DecidableEq, Repr

/-- The daemon process as far as one seat is concerned: the seat and the
process-wide reaper table. -/
structure Daemon where
  seat : TlmSeat
  notify_table : NotifyTable
  deriving DecidableEq, Repr

/-- Result of a seat operation: the state it leaves, the events in the order
they happen, and the returned `gboolean`. -/
structure Outcome where
  daemon : Daemon
  events : List Event
  ret : Bool
  deriving DecidableEq, Repr

/-- `tlm_seat_new` followed by `tlm_seat_init`, `notify_fd` being the two
descriptors `pipe2` hands out. -/
def tlm_seat_new (config : TlmConfig) (id path : Option String) (notify_fd : Int × Int) :
    TlmSeat :=
  { config := config, id := id, path := path, next_service := none, next_user := none,
    next_password := none, session := none, notify_fd := notify_fd }

/-- `_reset_next`. -/
def _reset_next (priv : TlmSeat) : TlmSeat :=
  { priv with next_service := none, next_user := none, next_password := none }

/-- The end of `tlm_seat_create_session`, from the second test of the session
slot on; `events` are the events emitted before it and `name` is
`default_user ? default_user : username`. -/
def create_session_finish (run : AuthRun) (d : Daemon) (events : List Event)
    (service name password : Option String) : Except Abort Outcome :=
  match d.seat.session with
  | some _ => .ok ⟨d, events, true⟩
  | none =>
    match tlm_session_new run d.notify_table d.seat.config d.seat.id service name password
            none d.seat.notify_fd.2 with
    | .error e => .error e
    | .ok (session, notify_table, new_events) =>
      .ok ⟨⟨{ d.seat with session := session }, notify_table⟩, events ++ new_events,
           session.isSome⟩

/-- `tlm_seat_create_session`, the `g_return_val_if_fail` checks compiled in. -/
def tlm_seat_create_session (run : AuthRun) (d : Daemon)
    (service username password : Option String) : Except Abort Outcome :=
  match d.seat.session with
  | some _ => .ok ⟨d, [], false⟩
  | none =>
    let service : Option String :=
      match service with
      | some s => some s
      | none =>
        match tlm_config_get_string d.seat.config d.seat.id
                (some TLM_CONFIG_GENERAL_PAM_SERVICE) with
        | some s => some s
        | none =>
          tlm_config_get_string d.seat.config (some TLM_CONFIG_GENERAL)
            (some TLM_CONFIG_GENERAL_PAM_SERVICE)
    match username with
    | some u => create_session_finish run d [] service (some u) password
    | none =>
      let name_tmpl : Option String :=
        match tlm_config_get_string d.seat.config d.seat.id
                (some TLM_CONFIG_GENERAL_DEFAULT_USER) with
        | some t => some t
        | none =>
          tlm_config_get_string d.seat.config (some TLM_CONFIG_GENERAL)
            (some TLM_CONFIG_GENERAL_DEFAULT_USER)
      match _build_user_name name_tmpl d.seat.id with
      | .error e => .error e
      | .ok default_user =>
        create_session_finish run d [Event.prepare_user default_user] service
          (some default_user) password

/-- `tlm_seat_switch_user`. The block of `next_password` is freed and the field
is not assigned: it keeps the pointer it had. -/
def tlm_seat_switch_user (run : AuthRun) (d : Daemon)
    (service username password : Option String) : Except Abort Outcome :=
  match d.seat.session with
  | none => tlm_seat_create_session run d service username password
  | some session =>
    .ok ⟨{ d with seat := { d.seat with next_service := service, next_user := username } },
         tlm_session_terminate session, true⟩

/-- `tlm_seat_terminate_session`. -/
def tlm_seat_terminate_session (d : Daemon) : Outcome :=
  match d.seat.session with
  | none => ⟨d, [], false⟩
  | some session => ⟨d, tlm_session_terminate session, true⟩

/-- `_notify_handler`: `notify_pid` is what `read` left in the variable and
`cont` the value of the variable after `session-terminated` has been emitted. -/
def _notify_handler (as_bool : String → Bool) (run : AuthRun) (cont : Bool)
    (_notify_pid : Int) (d : Daemon) : Except Abort Outcome :=
  let dropped : List Event :=
    match d.seat.session with
    | none => []
    | some session => [Event.session_unref session]
  let d1 : Daemon := { d with seat := { d.seat with session := none } }
  let events : List Event := dropped ++ [Event.session_terminated d1.seat.id]
  if cont = false then .ok ⟨d1, events, cont⟩
  else if tlm_config_get_boolean as_bool d1.seat.config (some TLM_CONFIG_GENERAL)
            (some TLM_CONFIG_GENERAL_AUTO_LOGIN) true then
    match tlm_seat_create_session run d1 d1.seat.next_service d1.seat.next_user
            d1.seat.next_password with
    | .error e => .error e
    | .ok out =>
      .ok ⟨{ out.daemon with seat := _reset_next out.daemon.seat }, events ++ out.events, true⟩
  else .ok ⟨d1, events, true⟩

/-! ## Sequences of seat operations -/

/-- One step of the life of a seat: a call of its public interface by the
outer manager or a run of the child-death handler, with what the outside
world answers during the step. -/
inductive SeatOp where
  | create_session (run : AuthRun) (service username password : Option String)
  | switch_user (run : AuthRun) (service username password : Option String)
  | terminate_session
  | child_death (run : AuthRun) (cont : Bool) (notify_pid : Int)
  deriving DecidableEq, Repr

/-- The step of the seat for one operation. -/
def SeatOp.step (as_bool : String → Bool) (d : Daemon) : SeatOp → Except Abort Outcome
  | .create_session run service username password =>
    tlm_seat_create_session run d service username password
  | .switch_user run service username password =>
    tlm_seat_switch_user run d service username password
  | .terminate_session => .ok (tlm_seat_terminate_session d)
  | .child_death run cont notify_pid => _notify_handler as_bool run cont notify_pid d

/-- The operations of a list one after the other: the final state and all the
events, or the reason the run stopped for. -/
def run_ops (as_bool : String → Bool) : List SeatOp → Daemon → Except Abort (Daemon × List Event)
  | [], d => .ok (d, [])
  | op :: ops, d =>
    match op.step as_bool d with
    | .error e => .error e
    | .ok out =>
      match run_ops as_bool ops out.daemon with
      | .error e => .error e
      | .ok (d', events) => .ok (d', out.events ++ events)

/-- The seat has a pending switch: one of the three `next_` fields is set. -/
def pending_nonempty (priv : TlmSeat) : Bool :=
  priv.next_service.isSome || priv.next_user.isSome || priv.next_password.isSome

/-- The event is a construction of a session. -/
def Event.is_session_new : Event → Bool
  | .session_new _ _ _ _ => true
  | _ => false

/-- The operation is a run of the child-death handler. -/
def SeatOp.is_child_death : SeatOp → Bool
  | .child_death _ _ _ => true
  | _ => false

/-- The operation is a run of the child-death handler in which the observers
of `session-terminated` answer false. -/
def SeatOp.is_veto : SeatOp → Bool
  | .child_death _ cont _ => !cont
  | _ => false


/-! ## Conditions on templates and seat ids -/

/-- Every `%` that the scan of the template arrives at has a character after
it. A template that does not end in `%` is of this kind. -/
def escapes_complete : List Char → Bool
  | [] => true
  | [c] => c != '%'
  | c :: x :: rest => if c = '%' then escapes_complete rest else escapes_complete (x :: rest)

/-- The seat id does not start with `seat`, or what follows the prefix starts
with neither white space nor a sign and its leading digits make a number below
2 ^ 31. -/
def seat_id_plain (seat_id : String) : Bool :=
  !starts_with_seat seat_id.data ||
    ((match seat_id.data.drop 4 with
      | [] => true
      | c :: _ => !isspace c && c != '-' && c != '+') &&
     decide (digits_value 0 (seat_id.data.drop 4) < 2 ^ 31))

/-- The run stays in the daemon process: `fork`, when it is reached, does not
return 0. -/
def AuthRun.stays_daemon (run : AuthRun) : Bool :=
  match run.signal with
  | .session_created _ fork_result => !run.created || fork_result != 0
  | _ => true

/-- The lookup pattern of `tlm_seat_create_session`: the string of the key in
the group of the seat, and the string in `General` when that lookup gives
nothing. -/
def seat_config_string (config : TlmConfig) (id : Option String) (key : String) :
    Option String :=
  match tlm_config_get_string config id (some key) with
  | some v => some v
  | none => tlm_config_get_string config (some TLM_CONFIG_GENERAL) (some key)

/-! ## Data of the scenarios of §8 -/

/-- Configuration of the cold auto-login scenario, with a PAM service. -/
def scenario_config : TlmConfig :=
  ⟨[("General", [("AutoLogin", "true"), ("DefaultUser", "guest%S"), ("PAMService", "tlm-login")])]⟩

/-- An authentication that succeeds and whose `fork` returns `pid` to the daemon. -/
def auth_success (pid : Int) : AuthRun := ⟨true, .session_created none pid, true⟩

/-- Seat `seat0` right after construction, the reaper table empty. -/
def scenario_idle : Daemon := ⟨tlm_seat_new scenario_config (some "seat0") none (3, 4), []⟩

/-- The session of `alice` on `seat0`, her child being process 500. -/
def alice_session : TlmSession :=
  { config := scenario_config, notify_fd := 4, child_pid := 500, seat_id := some "seat0",
    service := some "login", username := some "alice", env_hash := none, auth_session := true }

/-- Seat `seat0` while the session of `alice` runs. -/
def scenario_alice : Daemon :=
  ⟨{ tlm_seat_new scenario_config (some "seat0") none (3, 4) with session := some alice_session },
   [(500, 4)]⟩

/-- A reading of stored strings as booleans for the scenarios: `true` and `1`
read as true. -/
def scenario_as_bool (s : String) : Bool := s = "true" || s = "1"

/-- Seat `seat0` after `switch_user ("login", "bob", "pw")` during the session
of `alice`. -/
def scenario_switching : Daemon :=
  { scenario_alice with
    seat := { scenario_alice.seat with next_service := some "login", next_user := some "bob" } }

/-- A configuration whose `General` group has no `DefaultUser`. -/
def config_without_default_user : TlmConfig :=
  ⟨[("General", [("AutoLogin", "true"), ("PAMService", "tlm-login")])]⟩

/-- A configuration in which the group of `seat0` overrides `PAMService`. -/
def config_with_seat_group : TlmConfig :=
  ⟨[("General", [("DefaultUser", "guest%S"), ("PAMService", "tlm-login")]),
    ("seat0", [("PAMService", "tlm-seat0")])]⟩

/-! ## More of the configuration store (`tlm-config.c`) -/

/-- Modelled from the spec: key name of the terminal set-up switch (§4.1), the
header that defines the macro is not among the sources. -/
def TLM_CONFIG_GENERAL_SETUP_TERMINAL : String := "SetupTerminal"

/-- Modelled from the spec: key name of the session command (§4.1), the header
that defines the macro is not among the sources. -/
def TLM_CONFIG_GENERAL_SESSION_CMD : String := "SessionCmd"

/-- Modelled from the spec: key name of the exported `PATH` (§4.1), the header
that defines the macro is not among the sources. -/
def TLM_CONFIG_GENERAL_SESSION_PATH : String := "SessionPath"

/-- Modelled from the spec: key name of the exported `XDG_DATA_DIRS` (§4.1),
the header that defines the macro is not among the sources. -/
def TLM_CONFIG_GENERAL_DATA_DIRS : String := "DataDirs"

/-- `tlm_config_set_string`. The table of the group is changed in place, which
the association list shows as the entry of the group being replaced. -/
def tlm_config_set_string (self : TlmConfig) (group key : Option String) (value : String) :
    TlmConfig :=
  match key with
  | none => self
  | some k =>
    if k = "" then self
    else
      let group : String :=
        match group with
        | none => TLM_CONFIG_GENERAL
        | some g => g
      match tlm_config_get_group self (some group) with
      | none =>
        ⟨g_hash_table_insert self.config_table group (g_hash_table_insert [] k value)⟩
      | some group_table =>
        ⟨g_hash_table_insert self.config_table group (g_hash_table_insert group_table k value)⟩

/-- `tlm_config_get_int`. -/
def tlm_config_get_int (self : TlmConfig) (group key : Option String) (retval : Int) : Int :=
  match tlm_config_get_string self group key with
  | some str_value => atoi str_value.data
  | none => retval

/-- A store whose `General` group holds a `PAMService` and a number that is
no number. -/
def config_with_text_number : TlmConfig :=
  ⟨[("General", [("PAMService", "tlm-login"), ("Timeout", "abc")])]⟩

/-! ## Command line of the session (`_session_on_session_created`, child side) -/

/-- Reasons for which the code that runs in the forked child has no defined
result. -/
inductive ChildFault where
  /-- a `NULL` pointer is dereferenced -/
  | null_pointer
  /-- a block that was freed is read -/
  | use_after_free
  /-- the argument vector has no `NULL` entry at its end -/
  | argv_unterminated
  deriving DecidableEq, Repr

/-- White space of the regular expression (`\s`), given on ASCII. -/
def pcre_space (c : Char) : Bool :=
  c = ' ' || c = '\t' || c = '\n' || c = '\x0b' || c = '\x0c' || c = '\r'

/-- Characters that `.` does not match, given on ASCII. -/
def pcre_newline (c : Char) : Bool :=
  c = '\n' || c = '\x0b' || c = '\x0c' || c = '\r'

/-- The rest of `'.*?'` or `".*?"` after the opening quote `q` matches: the
same quote comes up before any character that `.` does not match. -/
def closes_on_line (q : Char) : List Char → Bool
  | [] => false
  | c :: r => if c = q then true else if pcre_newline c then false else closes_on_line q r

/-- Where the scan of the command line stands: between matches, inside a match
of `\S+`, or inside a match of a quoted alternative. -/
inductive ScanMode where
  | sep
  | run
  | quoted (q : Char)
  deriving DecidableEq, Repr

/-- The pieces that splitting at the matches of `('.*?'|".*?"|\S+)` gives, the
text of each match included after the text that precedes it; `cur` is the piece
under construction. -/
def regex_split_scan : ScanMode → List Char → List Char → List (List Char)
  | .sep, cur, [] => [cur]
  | .run, cur, [] => [cur, []]
  | .quoted _, cur, [] => [cur, []]
  | .sep, cur, c :: r =>
    if pcre_space c then regex_split_scan .sep (cur ++ [c]) r
    else if (c = '\'' || c = '"') && closes_on_line c r then
      cur :: regex_split_scan (.quoted c) [c] r
    else cur :: regex_split_scan .run [c] r
  | .run, cur, c :: r =>
    if pcre_space c then cur :: regex_split_scan .sep [c] r
    else regex_split_scan .run (cur ++ [c]) r
  | .quoted q, cur, c :: r =>
    if c = q then (cur ++ [c]) :: regex_split_scan .sep [] r
    else regex_split_scan (.quoted q) (cur ++ [c]) r

/-- `g_regex_split_simple (pattern, shell, 0, G_REGEX_MATCH_NOTEMPTY)` for the
pattern of `_session_on_session_created`; the empty string gives the empty
vector. -/
def g_regex_split_simple (shell : List Char) : List (List Char) :=
  match shell with
  | [] => []
  | _ :: _ => regex_split_scan .sep [] shell

/-- `g_ascii_isspace`. -/
def g_ascii_isspace (c : Char) : Bool :=
  c = ' ' || c = '\t' || c = '\n' || c = '\x0c' || c = '\r'

/-- `g_strstrip`: leading, then trailing white space removed. -/
def g_strstrip (s : List Char) : List Char :=
  (s.dropWhile g_ascii_isspace).rdropWhile g_ascii_isspace

/-- Where `g_strcompress` stands: copying, after a backslash, or inside an
octal escape of which `digits` digits made `value`. -/
inductive EscapeState where
  | plain
  | escape
  | octal (value digits : Nat)
  deriving DecidableEq, Repr

def is_octal (c : Char) : Bool := decide ('0' ≤ c) && decide (c ≤ '7')

/-- The byte an octal escape leaves in a `gchar`, as the character that stands
for that byte; from 0200 on it is no ASCII text. -/
def octal_byte (value : Nat) : Char := Char.ofNat (value % 256)

/-- The character after a backslash that is no octal digit. -/
def unescape (c : Char) : Char :=
  if c = 'b' then '\x08' else if c = 'f' then '\x0c' else if c = 'n' then '\n'
  else if c = 'r' then '\r' else if c = 't' then '\t' else if c = 'v' then '\x0b'
  else c

/-- The copy loop of `g_strcompress`. -/
def strcompress_scan : EscapeState → List Char → List Char
  | .plain, [] => []
  | .escape, [] => []
  | .octal value _, [] => [octal_byte value]
  | .plain, c :: r =>
    if c = '\\' then strcompress_scan .escape r else c :: strcompress_scan .plain r
  | .escape, c :: r =>
    if is_octal c then strcompress_scan (.octal (c.toNat - '0'.toNat) 1) r
    else unescape c :: strcompress_scan .plain r
  | .octal value digits, c :: r =>
    if digits < 3 && is_octal c then
      strcompress_scan (.octal (value * 8 + (c.toNat - '0'.toNat)) (digits + 1)) r
    else if c = '\\' then octal_byte value :: strcompress_scan .escape r
    else octal_byte value :: c :: strcompress_scan .plain r

/-- `g_strcompress`, the result read as a C string: it ends before the first
NUL byte that an escape produced. -/
def g_strcompress (source : List Char) : List Char :=
  (strcompress_scan .plain source).takeWhile (fun c => c != '\x00')

/-- The test and the `memmove` on an item of the split: an item that begins
and ends with the same quote loses both. -/
def strip_quotes (item : List Char) : List Char :=
  if (item.head? = some '"' && item.getLast? = some '"') ||
      (item.head? = some '\'' && item.getLast? = some '\'') then
    (item.drop 1).dropLast
  else item

/-- The `for` loop over `temp_strv`: the strings stored in `args`. -/
def session_cmd_items : List (List Char) → List (List Char)
  | [] => []
  | temp :: rest =>
    if (g_strstrip temp).length = 0 then session_cmd_items rest
    else g_strcompress (strip_quotes (g_strstrip temp)) :: session_cmd_items rest

/-- The `if (shell)` branch of `_session_on_session_created`: `args` is an
array of as many zeroed entries as `temp_strv` has strings, `NULL` when that
number is 0; it is a vector for `execvp` when an entry is left `NULL`. -/
def session_cmd_args (shell : List Char) : Except ChildFault (List (List Char)) :=
  if (g_regex_split_simple shell).length = 0 then .error .null_pointer
  else if (session_cmd_items (g_regex_split_simple shell)).length
      < (g_regex_split_simple shell).length then
    .ok (session_cmd_items (g_regex_split_simple shell))
  else .error .argv_unterminated

/-! ### The tokens as the amended rule words them -/

/-- An entry of `environ`: a string `name=value`, or a pointer to a block that
has been freed. -/
inductive EnvSlot where
  | var (name value : String)
  | freed
  deriving DecidableEq, Repr

/-- The array `environ`, in its order. -/
abbrev Environ := List EnvSlot

/-- The libc `getenv`: the entries are read in order up to the one that has
the name. -/
def getenv (name : String) : Environ → Except ChildFault (Option String)
  | [] => .ok none
  | .freed :: _ => .error .use_after_free
  | .var n v :: rest => if n = name then .ok (some v) else getenv name rest

/-- The entries read and rewritten by `setenv (name, value, 1)` for a value
that is not `NULL`: the entry of the name gets a copy of the new string, a new
entry goes to the end. -/
def setenv_scan (name value : String) : Environ → Except ChildFault Environ
  | [] => .ok [.var name value]
  | .freed :: _ => .error .use_after_free
  | .var n v :: rest =>
    if n = name then .ok (.var name value :: rest)
    else
      match setenv_scan name value rest with
      | .error e => .error e
      | .ok rest' => .ok (.var n v :: rest')

/-- The name is one that `setenv` accepts: it is not empty and has no `=`. -/
def env_name_ok (name : String) : Bool :=
  name != "" && !(name.data.contains '=')

/-- The libc `setenv (name, value, 1)`: a name that is empty or has a `=` is
refused (`EINVAL`) and the environment stays as it is; otherwise the length of
the value is taken first. -/
def setenv (name : String) (value : Option String) (environ : Environ) :
    Except ChildFault Environ :=
  if env_name_ok name then
    match value with
    | none => .error .null_pointer
    | some v => setenv_scan name v environ
  else .ok environ

/-- The libc `unsetenv`: every entry is read. -/
def unsetenv (name : String) : Environ → Except ChildFault Environ
  | [] => .ok []
  | .freed :: _ => .error .use_after_free
  | .var n v :: rest =>
    match unsetenv name rest with
    | .error e => .error e
    | .ok rest' => if n = name then .ok rest' else .ok (.var n v :: rest')

/-- The entries after `putenv (string); g_free (string);` for a string with a
`=`: `putenv` stores the pointer itself, in the entry of the name or at the
end, and the block is then freed. -/
def putenv_scan (name : String) : Environ → Except ChildFault Environ
  | [] => .ok [.freed]
  | .freed :: _ => .error .use_after_free
  | .var n v :: rest =>
    if n = name then .ok (.freed :: rest)
    else
      match putenv_scan name rest with
      | .error e => .error e
      | .ok rest' => .ok (.var n v :: rest')

/-- One turn of the loop over the PAM environment list in `_set_environment`:
`putenv (*env); g_free (*env);`. A string without `=` makes `putenv` remove
the variable. -/
def putenv_and_free (string : String) (environ : Environ) : Except ChildFault Environ :=
  if '=' ∈ string.data then
    putenv_scan (String.mk (string.data.takeWhile (fun c => c != '='))) environ
  else unsetenv string environ

/-- The loop over the PAM environment list. -/
def putenv_list : List String → Environ → Except ChildFault Environ
  | [], environ => .ok environ
  | string :: rest, environ =>
    match putenv_and_free string environ with
    | .error e => .error e
    | .ok environ' => putenv_list rest environ'

/-- The traversal of `env_hash` with `_setenv_to_session`, in the order of the
list. -/
def setenv_list : List (String × String) → Environ → Except ChildFault Environ
  | [], environ => .ok environ
  | (key, val) :: rest, environ =>
    match setenv key (some val) environ with
    | .error e => .error e
    | .ok environ' => setenv_list rest environ'

/-- `_set_environment`: `envlist` is what `tlm_auth_session_get_envlist`
returns, `home` and `shell` what `tlm_user_get_home_dir` and
`tlm_user_get_shell` return for the user of the session. -/
def _set_environment (envlist : Option (List String)) (home shell : Option String)
    (priv : TlmSession) (environ : Environ) : Except ChildFault Environ := do
  let environ ←
    match envlist with
    | none => pure environ
    | some list => putenv_list list environ
  let path : String :=
    match tlm_config_get_string priv.config (some TLM_CONFIG_GENERAL)
            (some TLM_CONFIG_GENERAL_SESSION_PATH) with
    | some path => path
    | none => "/usr/local/bin:/usr/bin:/bin"
  let environ ← setenv "PATH" (some path) environ
  let environ ← setenv "USER" priv.username environ
  let environ ← setenv "LOGNAME" priv.username environ
  let environ ← setenv "HOME" home environ
  let environ ← setenv "SHELL" shell environ
  let environ ← setenv "XDG_SEAT" priv.seat_id environ
  let xdg_data_dirs : String :=
    match tlm_config_get_string priv.config (some TLM_CONFIG_GENERAL)
            (some TLM_CONFIG_GENERAL_DATA_DIRS) with
    | some dirs => dirs
    | none => "/usr/share:/usr/local/share"
  let environ ← setenv "XDG_DATA_DIRS" (some xdg_data_dirs) environ
  match priv.env_hash with
  | none => pure environ
  | some env_hash => setenv_list env_hash environ

/-! ## The child side of `_session_on_session_created` -/

/-- The vector `args` that `_session_on_session_created` hands to `execvp`,
built in the environment `_set_environment` left. -/
def session_args (config : TlmConfig) (environ : Environ) : Except ChildFault (List String) :=
  match tlm_config_get_string config (some TLM_CONFIG_GENERAL)
          (some TLM_CONFIG_GENERAL_SESSION_CMD) with
  | some shell =>
    match session_cmd_args shell.data with
    | .error e => .error e
    | .ok args => .ok (args.map String.mk)
  | none =>
    match getenv "SHELL" environ with
    | .error e => .error e
    | .ok (some shell) => .ok [shell]
    | .ok none => .ok ["systemd", "--user"]

/-- What the child process finds around it: the environment inherited from
the daemon, the answers of the user database and of the authentication
session, and which of its system calls fail. -/
structure ChildOs where
  environ : Environ
  ppid : Int
  target_uid : Nat
  target_gid : Nat
  home_dir : Option String
  shell : Option String
  pam_envlist : Option (List String)
  ioctl_fails : Bool
  fchown_fails : Bool
  initgroups_fails : Bool
  setregid_fails : Bool
  setreuid_fails : Bool
  chdir_fails : Bool
  execvp_returns : Bool
  deriving DecidableEq, Repr

/-- Calls of the child that are visible from outside the process, and its
warnings. -/
inductive Syscall where
  /-- the call of `_set_terminal` -/
  | set_terminal
  | setsid
  /-- `ioctl (0, TIOCSCTTY, 1)` -/
  | ioctl_tiocsctty
  | fchown (fd : Int) (owner : Nat) (group : Int)
  | initgroups (user : Option String) (group : Nat)
  | setregid (rgid egid : Nat)
  | setreuid (ruid euid : Nat)
  | getgroups
  | chdir (path : String)
  | execvp (file : String) (argv : List String)
  /-- a `WARN` line -/
  | warn (text : String)
  deriving DecidableEq, Repr

/-- How the callback ends in the child: `execvp` replaced the process image,
or the callback returned to its caller. -/
inductive ChildEnd where
  | replaced
  | returned
  deriving DecidableEq, Repr

/-- A run of the child: its calls in order, the environment at `execvp`, and
how the callback ended. -/
structure ChildRun where
  calls : List Syscall
  environ : Environ
  ending : ChildEnd
  deriving DecidableEq, Repr

/-- A `WARN` line when the call before it failed. -/
def warn_if (failed : Bool) (text : String) : List Syscall :=
  if failed then [Syscall.warn text] else []

/-- The calls of the child from the terminal set-up to `getgroups`. -/
def child_prologue (as_bool : String → Bool) (os : ChildOs) (priv : TlmSession) :
    List Syscall :=
  (if tlm_config_get_boolean as_bool priv.config (some TLM_CONFIG_GENERAL)
        (some TLM_CONFIG_GENERAL_SETUP_TERMINAL) false then [Syscall.set_terminal] else [])
  ++ (if os.ppid = 1 then
        [Syscall.setsid, Syscall.ioctl_tiocsctty]
          ++ warn_if os.ioctl_fails "ioctl(TIOCSCTTY) failed"
      else [])
  ++ [Syscall.fchown 0 os.target_uid (-1)]
  ++ warn_if os.fchown_fails "Changing TTY access rights failed"
  ++ [Syscall.initgroups priv.username os.target_gid]
  ++ warn_if os.initgroups_fails "initgroups() failed"
  ++ [Syscall.setregid os.target_gid os.target_gid]
  ++ warn_if os.setregid_fails "setregid() failed"
  ++ [Syscall.setreuid os.target_uid os.target_uid]
  ++ warn_if os.setreuid_fails "setreuid() failed"
  ++ [Syscall.getgroups]

/-- The calls around `chdir`; `home` is what `getenv ("HOME")` gave. -/
def child_chdir (os : ChildOs) (home : Option String) : List Syscall :=
  match home with
  | some dir => Syscall.chdir dir :: warn_if os.chdir_fails "Failed to change directroy"
  | none => [Syscall.warn "Could not get home directory"]

/-- `_session_on_session_created` after `fork` returned 0. The `DBG` lines are
not part of the run; the body of `_set_terminal` is one call. -/
def session_child (as_bool : String → Bool) (os : ChildOs) (priv : TlmSession) :
    Except ChildFault ChildRun :=
  match _set_environment os.pam_envlist os.home_dir os.shell priv os.environ with
  | .error e => .error e
  | .ok environ =>
    match getenv "HOME" environ with
    | .error e => .error e
    | .ok home =>
      match session_args priv.config environ with
      | .error e => .error e
      | .ok args =>
        match args with
        | [] => .error .null_pointer
        | file :: _ =>
          .ok ⟨child_prologue as_bool os priv ++ child_chdir os home
                 ++ [Syscall.execvp file args],
               environ,
               if os.execvp_returns then ChildEnd.returned else ChildEnd.replaced⟩

/-! ## Data for the child -/

/-- The child of the session of `alice`: the daemon runs with `SHELL=/bin/zsh`
in its environment, the login shell of `alice` is `/bin/bash`, no call fails
and `execvp` succeeds. -/
def alice_child_os : ChildOs :=
  { environ := [.var "PATH" "/usr/sbin:/sbin", .var "SHELL" "/bin/zsh"], ppid := 700,
    target_uid := 1000, target_gid := 1000, home_dir := some "/home/alice",
    shell := some "/bin/bash", pam_envlist := none, ioctl_fails := false,
    fchown_fails := false, initgroups_fails := false, setregid_fails := false,
    setreuid_fails := false, chdir_fails := false, execvp_returns := false }

/-- No entry of the environment points to a freed block. -/
def environ_live : Environ → Bool
  | [] => true
  | .freed :: _ => false
  | .var _ _ :: rest => environ_live rest

/-! ## Conditions and data for the statements on the child and on errors -/

/-- The call is a `WARN` line. -/
def Syscall.is_warn : Syscall → Bool
  | .warn _ => true
  | _ => false

/-- The call is one of the four calls of the privilege transition. -/
def Syscall.is_privilege : Syscall → Bool
  | .fchown _ _ _ => true
  | .initgroups _ _ => true
  | .setregid _ _ => true
  | .setreuid _ _ => true
  | _ => false

/-- The same surroundings with another combination of failures of `fchown`,
`initgroups`, `setregid` and `setreuid`. -/
def ChildOs.with_failures (os : ChildOs) (fchown_fails initgroups_fails setregid_fails
    setreuid_fails : Bool) : ChildOs :=
  { os with fchown_fails := fchown_fails, initgroups_fails := initgroups_fails,
            setregid_fails := setregid_fails, setreuid_fails := setreuid_fails }

/-- A configuration in which the group of `seat0` has its own `AutoLogin` and
`SessionCmd`. -/
def config_seat_overrides : TlmConfig :=
  ⟨[("General", [("AutoLogin", "true"), ("DefaultUser", "guest%S"),
                 ("PAMService", "tlm-login"), ("SessionCmd", "/bin/sh")]),
    ("seat0", [("AutoLogin", "false"), ("SessionCmd", "/bin/zsh")])]⟩

/-- An authentication whose `fork` fails. -/
def auth_fork_failure : AuthRun := ⟨true, .session_created none (-1), true⟩

/-- An authentication that reports wrong credentials and returns FALSE from
its start. -/
def auth_rejected : AuthRun := ⟨true, .auth_error, false⟩

/-- An authentication that reports wrong credentials and whose start returns
TRUE, as a start does that only begins the authentication. -/
def auth_error_after_start : AuthRun := ⟨true, .auth_error, true⟩

/-- Seat `seat0` built with the configuration whose `seat0` group overrides
`AutoLogin` and `SessionCmd`, while the session of `alice` runs. -/
def scenario_overrides : Daemon :=
  ⟨{ tlm_seat_new config_seat_overrides (some "seat0") none (3, 4) with
       session := some { alice_session with config := config_seat_overrides } },
   [(500, 4)]⟩

/-! ## Positions read by the scan of the template -/

/-- The indices at which `_build_user_name` reads `*pptr`, in the order of the
reads: `i` is the index `pptr` stands at and the list is the text from there
up to the terminator, so that the terminator has the index `i` plus the length
of the list. The test of the loop reads `*pptr`; after a `%` the pointer moves
one on and the `switch` reads there; the `pptr++` that ends the turn moves one
on again and the test of the loop reads there. The list stops at the first
read behind the terminator. -/
def build_user_name_reads : Nat → List Char → List Nat
  | i, [] => [i]
  | i, c :: rest =>
    if c = '%' then
      match rest with
      | [] => [i, i + 1, i + 2]
      | _ :: rest' => i :: (i + 1) :: build_user_name_reads (i + 2) rest'
    else i :: build_user_name_reads (i + 1) rest

/-- The number of `%` characters the text ends in. -/
def trailing_percents (t : List Char) : Nat :=
  (t.reverse.takeWhile (fun c => c == '%')).length

/-! ## Conditions and data for the statements on templates and on `kill` -/

/-- The group that `tlm_config_get_group` finds for the name holds the key. -/
def group_has_key (config : TlmConfig) (group : Option String) (key : String) : Bool :=
  match tlm_config_get_group config group with
  | none => false
  | some group_table => (g_hash_table_lookup group_table key).isSome

/-- An authentication whose start returns TRUE without having emitted
`session-created`. -/
def auth_pending : AuthRun := ⟨true, .nothing, true⟩

/-! ## The environment a session is specified to get -/

/-- The seven variables that `_set_environment` sets for every session, with
their values, in the order of the `setenv` calls: `user` and `seat` are the
username and the seat id of the session, `home` and `shell` what the user
database answers. -/
def fixed_environment (config : TlmConfig) (user home shell seat : String) :
    List (String × String) :=
  [("PATH",
      match tlm_config_get_string config (some TLM_CONFIG_GENERAL)
              (some TLM_CONFIG_GENERAL_SESSION_PATH) with
      | some path => path
      | none => "/usr/local/bin:/usr/bin:/bin"),
   ("USER", user), ("LOGNAME", user), ("HOME", home), ("SHELL", shell), ("XDG_SEAT", seat),
   ("XDG_DATA_DIRS",
      match tlm_config_get_string config (some TLM_CONFIG_GENERAL)
              (some TLM_CONFIG_GENERAL_DATA_DIRS) with
      | some dirs => dirs
      | none => "/usr/share:/usr/local/share")]

/-- The value that the rule of precedence of §4.4 (e) gives the variable `n`:
the one of the overrides when they have the name, else the fixed one when the
name is one of the seven, else the one PAM supplies, else the inherited one.
`pam` is the PAM environment list as names with values. -/
def environment_ref (overrides fixed pam : List (String × String))
    (inherited : Option String) (n : String) : Option String :=
  match g_hash_table_lookup overrides n with
  | some v => some v
  | none =>
    match g_hash_table_lookup fixed n with
    | some v => some v
    | none =>
      match g_hash_table_lookup pam n with
      | some v => some v
      | none => inherited

/-- An environment of the daemon that has all of the seven variables. -/
def daemon_environ : Environ :=
  [.var "PATH" "/usr/sbin:/sbin", .var "USER" "root", .var "LOGNAME" "root",
   .var "HOME" "/root", .var "SHELL" "/bin/zsh", .var "XDG_SEAT" "seat9",
   .var "XDG_DATA_DIRS" "/usr/share"]

/-! ## Theorems -/

theorem scenario_alice_reached :
    tlm_seat_create_session (auth_success 500) scenario_idle (some "login") (some "alice")
      (some "secret") =
      .ok ⟨scenario_alice,
           [Event.session_new (some "seat0") (some "login") (some "alice") (some "secret"),
            Event.fork 500], true⟩ := by
  decide

/-- C1: a call of `tlm_seat_create_session` on a seat whose session slot is
occupied returns FALSE, emits nothing (no `prepare-user`, no construction of a
session) and leaves the whole state, the slot and the pending triple included,
as it was; the slot therefore never holds a second session. -/
theorem create_session_rejected_when_occupied (run : AuthRun) (d : Daemon)
    (session : TlmSession) (service username password : Option String)
    (h : d.seat.session = some session) :
    tlm_seat_create_session run d service username password = .ok ⟨d, [], false⟩ := by
  simp [tlm_seat_create_session, h]

theorem create_session_rejected_when_occupied_witness :
    tlm_seat_create_session (auth_success 501) scenario_alice none none none
      = .ok ⟨scenario_alice, [], false⟩ :=
  create_session_rejected_when_occupied (auth_success 501) scenario_alice alice_session
    none none none rfl

/-- C2: on the seat that runs the session of `alice`,
`switch_user ("login", "bob", "pw")` stores the service and the user but not
the password: `next_password` is still `NULL` afterwards. -/
theorem switch_user_loses_password :
    ∃ out, tlm_seat_switch_user (auth_success 501) scenario_alice (some "login") (some "bob")
        (some "pw") = .ok out ∧
      out.daemon.seat.next_service = some "login" ∧
      out.daemon.seat.next_user = some "bob" ∧
      out.daemon.seat.next_password = none :=
  ⟨_, rfl, rfl, rfl, rfl⟩

/-- On every seat with an active session `tlm_seat_switch_user` leaves
`next_password` as it was, whatever password it is given. -/
theorem switch_user_keeps_next_password (run : AuthRun) (d : Daemon) (session : TlmSession)
    (service username password : Option String) (h : d.seat.session = some session) :
    ∃ out, tlm_seat_switch_user run d service username password = .ok out ∧
      out.daemon.seat.next_service = service ∧ out.daemon.seat.next_user = username ∧
      out.daemon.seat.next_password = d.seat.next_password :=
  ⟨⟨{ d with seat := { d.seat with next_service := service, next_user := username } },
    tlm_session_terminate session, true⟩,
   by simp only [tlm_seat_switch_user, h], rfl, rfl, rfl⟩

/-! ### Operations on a seat whose slot is occupied -/

theorem step_when_occupied (as_bool : String → Bool) (d : Daemon) (session : TlmSession)
    (h : d.seat.session = some session) (op : SeatOp) (hop : op.is_child_death = false) :
    ∃ out, op.step as_bool d = .ok out ∧ out.daemon.seat.session = some session ∧
      out.daemon.notify_table = d.notify_table ∧
      ∀ e ∈ out.events, e.is_session_new = false ∧ ∀ r, e ≠ Event.fork r := by
  cases op with
  | create_session run service username password =>
    refine ⟨⟨d, [], false⟩, ?_, h, rfl, ?_⟩
    · simp [SeatOp.step, tlm_seat_create_session, h]
    · simp
  | switch_user run service username password =>
    refine ⟨⟨{ d with seat := { d.seat with next_service := service, next_user := username } },
             tlm_session_terminate session, true⟩, ?_, h, rfl, ?_⟩
    · simp only [SeatOp.step, tlm_seat_switch_user, h]
    · simp [tlm_session_terminate, Event.is_session_new]
  | terminate_session =>
    refine ⟨⟨d, tlm_session_terminate session, true⟩, ?_, h, rfl, ?_⟩
    · simp [SeatOp.step, tlm_seat_terminate_session, h]
    · simp [tlm_session_terminate, Event.is_session_new]
  | child_death run cont pid => simp [SeatOp.is_child_death] at hop

theorem run_ops_when_occupied (as_bool : String → Bool) (session : TlmSession) :
    ∀ (ops : List SeatOp) (d : Daemon), d.seat.session = some session →
      (∀ op ∈ ops, op.is_child_death = false) →
      ∃ d' events, run_ops as_bool ops d = .ok (d', events) ∧
        d'.seat.session = some session ∧ d'.notify_table = d.notify_table ∧
        ∀ e ∈ events, e.is_session_new = false ∧ ∀ r, e ≠ Event.fork r := by
  intro ops
  induction ops with
  | nil =>
    intro d h _
    exact ⟨d, [], rfl, h, rfl, by simp⟩
  | cons op ops ih =>
    intro d h hops
    obtain ⟨out, hstep, hsess, htab, hev⟩ :=
      step_when_occupied as_bool d session h op (hops op (List.mem_cons_self _ _))
    obtain ⟨d', events, hrun, hsess', htab', hev'⟩ :=
      ih out.daemon hsess (fun o ho => hops o (List.mem_cons_of_mem _ ho))
    refine ⟨d', out.events ++ events, ?_, hsess', htab'.trans htab, ?_⟩
    · simp [run_ops, hstep, hrun]
    · intro e he
      rcases List.mem_append.mp he with he | he
      · exact hev e he
      · exact hev' e he

theorem session_new_events (run : AuthRun) (t : NotifyTable) (config : TlmConfig)
    (seat_id service username password : Option String)
    (environment : Option (List (String × String))) (fd : Int)
    (r : Option TlmSession × NotifyTable × List Event)
    (h : tlm_session_new run t config seat_id service username password environment fd = .ok r) :
    Event.session_new seat_id service username password ∈ r.2.2 := by
  simp only [tlm_session_new] at h
  split at h
  · cases h
  · split at h <;> · cases h; simp

/-- C3: on a seat with an active session `tlm_seat_switch_user` returns TRUE,
its only events are the two `kill` calls of one `tlm_session_terminate` on
that session, and the slot holds the same session afterwards; no sequence of
operations without a run of the child-death handler constructs a session or
forks, all of them leave the same session in the slot; and a run of the
child-death handler constructs a session only if the observers answered
continue and AutoLogin reads true. -/
theorem switch_user_defers_session (as_bool : String → Bool) (run : AuthRun) (d : Daemon)
    (session : TlmSession) (service username password : Option String)
    (h : d.seat.session = some session) :
    (∃ out, tlm_seat_switch_user run d service username password = .ok out ∧
        out.ret = true ∧ out.events = tlm_session_terminate session ∧
        out.daemon.seat.session = some session ∧
        out.daemon.notify_table = d.notify_table) ∧
    (∀ ops : List SeatOp, (∀ op ∈ ops, op.is_child_death = false) →
        ∃ d' events, run_ops as_bool ops d = .ok (d', events) ∧
          d'.seat.session = some session ∧
          ∀ e ∈ events, e.is_session_new = false ∧ ∀ r, e ≠ Event.fork r) ∧
    (∀ (run' : AuthRun) (cont : Bool) (pid : Int) (d2 : Daemon) (out : Outcome),
        _notify_handler as_bool run' cont pid d2 = .ok out →
        (∃ e ∈ out.events, e.is_session_new = true) →
        cont = true ∧
        tlm_config_get_boolean as_bool d2.seat.config (some TLM_CONFIG_GENERAL)
          (some TLM_CONFIG_GENERAL_AUTO_LOGIN) true = true) := by
  refine ⟨?_, ?_, ?_⟩
  · exact ⟨⟨{ d with seat := { d.seat with next_service := service, next_user := username } },
             tlm_session_terminate session, true⟩,
      by simp only [tlm_seat_switch_user, h], rfl, rfl, h, rfl⟩
  · intro ops hops
    obtain ⟨d', events, hrun, hsess, _, hev⟩ := run_ops_when_occupied as_bool session ops d h hops
    exact ⟨d', events, hrun, hsess, hev⟩
  · intro run' cont pid d2 out hrun hnew
    unfold _notify_handler at hrun
    cases cont with
    | false =>
      simp at hrun
      subst hrun
      obtain ⟨e, he, hne⟩ := hnew
      simp at he
      rcases he with he | he
      · cases hs : d2.seat.session <;> simp [hs] at he
        subst he; simp [Event.is_session_new] at hne
      · subst he; simp [Event.is_session_new] at hne
    | true =>
      refine ⟨rfl, ?_⟩
      by_contra hauto
      simp [hauto] at hrun
      subst hrun
      obtain ⟨e, he, hne⟩ := hnew
      simp at he
      rcases he with he | he
      · cases hs : d2.seat.session <;> simp [hs] at he
        subst he; simp [Event.is_session_new] at hne
      · subst he; simp [Event.is_session_new] at hne

theorem switch_user_defers_session_witness :
    scenario_alice.seat.session = some alice_session ∧
    ∃ out, tlm_seat_switch_user (auth_success 501) scenario_alice (some "login") (some "bob")
        (some "pw") = .ok out ∧
      out.ret = true ∧ out.events = tlm_session_terminate alice_session ∧
      out.daemon.seat.session = some alice_session ∧
      out.daemon.notify_table = scenario_alice.notify_table :=
  ⟨rfl, (switch_user_defers_session scenario_as_bool (auth_success 501) scenario_alice
    alice_session (some "login") (some "bob") (some "pw") rfl).1⟩

/-! ### The child-death handler -/

theorem get_boolean_default (as_bool : String → Bool) (config : TlmConfig)
    (group key : Option String) (retval : Bool)
    (h : tlm_config_get_string config group key = none) :
    tlm_config_get_boolean as_bool config group key retval = retval := by
  simp [tlm_config_get_boolean, h]

theorem pending_nonempty_reset_next (priv : TlmSeat) :
    pending_nonempty (_reset_next priv) = false := by
  simp [pending_nonempty, _reset_next]

/-- C4: when the observers of `session-terminated` answer continue and
AutoLogin reads true, which it does when the key is unset, a run of the
child-death handler is one call of `tlm_seat_create_session` with the stored
`next_service`, `next_user`, `next_password` on the state in which the old
session has been released and the slot is empty, followed by `_reset_next`;
whenever the handler returns, the pending triple is empty. -/
theorem notify_handler_relogin (as_bool : String → Bool) (run : AuthRun) (pid : Int)
    (d : Daemon)
    (h_auto : tlm_config_get_string d.seat.config (some TLM_CONFIG_GENERAL)
        (some TLM_CONFIG_GENERAL_AUTO_LOGIN) = none ∨
      tlm_config_get_boolean as_bool d.seat.config (some TLM_CONFIG_GENERAL)
        (some TLM_CONFIG_GENERAL_AUTO_LOGIN) true = true) :
    _notify_handler as_bool run true pid d =
      (match tlm_seat_create_session run { d with seat := { d.seat with session := none } }
               d.seat.next_service d.seat.next_user d.seat.next_password with
       | .error e => .error e
       | .ok out =>
         .ok ⟨{ out.daemon with seat := _reset_next out.daemon.seat },
              ((match d.seat.session with
                | none => []
                | some session => [Event.session_unref session])
               ++ [Event.session_terminated d.seat.id]) ++ out.events,
              true⟩) ∧
    (∀ out, _notify_handler as_bool run true pid d = .ok out →
      out.daemon.seat.next_service = none ∧ out.daemon.seat.next_user = none ∧
      out.daemon.seat.next_password = none ∧ out.ret = true) := by
  have hb : tlm_config_get_boolean as_bool d.seat.config (some TLM_CONFIG_GENERAL)
      (some TLM_CONFIG_GENERAL_AUTO_LOGIN) true = true := by
    rcases h_auto with h | h
    · exact get_boolean_default as_bool _ _ _ true h
    · exact h
  have heq : _notify_handler as_bool run true pid d =
      (match tlm_seat_create_session run { d with seat := { d.seat with session := none } }
               d.seat.next_service d.seat.next_user d.seat.next_password with
       | .error e => .error e
       | .ok out =>
         .ok ⟨{ out.daemon with seat := _reset_next out.daemon.seat },
              ((match d.seat.session with
                | none => []
                | some session => [Event.session_unref session])
               ++ [Event.session_terminated d.seat.id]) ++ out.events,
              true⟩) := by
    simp only [_notify_handler, hb]
    rfl
  refine ⟨heq, ?_⟩
  intro out hout
  rw [heq] at hout
  split at hout
  · cases hout
  · cases hout
    exact ⟨rfl, rfl, rfl, rfl⟩

theorem notify_handler_relogin_witness :
    ∃ out, _notify_handler scenario_as_bool (auth_success 501) true 500 scenario_switching
        = .ok out ∧
      out.daemon.seat.next_service = none ∧ out.daemon.seat.next_user = none ∧
      out.daemon.seat.next_password = none ∧ out.ret = true ∧
      (∃ s, out.daemon.seat.session = some s ∧ s.username = some "bob" ∧
        s.service = some "login") :=
  ⟨_, rfl,
    ((notify_handler_relogin scenario_as_bool (auth_success 501) 500 scenario_switching
      (Or.inr (by decide))).2 _ rfl).1,
    ((notify_handler_relogin scenario_as_bool (auth_success 501) 500 scenario_switching
      (Or.inr (by decide))).2 _ rfl).2.1,
    ((notify_handler_relogin scenario_as_bool (auth_success 501) 500 scenario_switching
      (Or.inr (by decide))).2 _ rfl).2.2.1,
    rfl, ⟨_, rfl, rfl, rfl⟩⟩

/-- C5: when the observers of `session-terminated` answer false, the
child-death handler releases the session of the slot, emits
`session-terminated` with the seat id and nothing else (no session is
constructed, whatever AutoLogin says), and returns with `next_service`,
`next_user` and `next_password` as they were. -/
theorem notify_handler_veto (as_bool : String → Bool) (run : AuthRun) (pid : Int)
    (d : Daemon) :
    ∃ out, _notify_handler as_bool run false pid d = .ok out ∧
      out.daemon.seat.session = none ∧
      out.events = (match d.seat.session with
                    | none => []
                    | some session => [Event.session_unref session])
                   ++ [Event.session_terminated d.seat.id] ∧
      (∀ e ∈ out.events, e.is_session_new = false ∧ ∀ r, e ≠ Event.fork r) ∧
      out.daemon.seat.next_service = d.seat.next_service ∧
      out.daemon.seat.next_user = d.seat.next_user ∧
      out.daemon.seat.next_password = d.seat.next_password ∧
      out.daemon.notify_table = d.notify_table := by
  refine ⟨⟨{ d with seat := { d.seat with session := none } },
           (match d.seat.session with
            | none => []
            | some session => [Event.session_unref session])
           ++ [Event.session_terminated d.seat.id], false⟩, ?_, rfl, rfl, ?_, rfl, rfl, rfl, rfl⟩
  · simp [_notify_handler]
  · intro e he
    simp only [List.mem_append, List.mem_singleton] at he
    rcases he with he | he
    · cases hs : d.seat.session <;> simp [hs] at he
      subst he
      simp [Event.is_session_new]
    · subst he
      simp [Event.is_session_new]

/-! ### The pending triple and the session slot -/

theorem create_session_finish_frame (run : AuthRun) (d : Daemon) (events : List Event)
    (service name password : Option String) (out : Outcome)
    (h : create_session_finish run d events service name password = .ok out) :
    out.daemon.seat.config = d.seat.config ∧ out.daemon.seat.id = d.seat.id ∧
    out.daemon.seat.next_service = d.seat.next_service ∧
    out.daemon.seat.next_user = d.seat.next_user ∧
    out.daemon.seat.next_password = d.seat.next_password := by
  unfold create_session_finish at h
  split at h
  · cases h
    exact ⟨rfl, rfl, rfl, rfl, rfl⟩
  · split at h
    · cases h
    · cases h
      exact ⟨rfl, rfl, rfl, rfl, rfl⟩

theorem create_session_frame (run : AuthRun) (d : Daemon)
    (service username password : Option String) (out : Outcome)
    (h : tlm_seat_create_session run d service username password = .ok out) :
    out.daemon.seat.config = d.seat.config ∧ out.daemon.seat.id = d.seat.id ∧
    out.daemon.seat.next_service = d.seat.next_service ∧
    out.daemon.seat.next_user = d.seat.next_user ∧
    out.daemon.seat.next_password = d.seat.next_password ∧
    (d.seat.session ≠ none → out.daemon = d) := by
  unfold tlm_seat_create_session at h
  cases hs : d.seat.session with
  | some s =>
    simp only [hs] at h
    cases h
    exact ⟨rfl, rfl, rfl, rfl, rfl, fun _ => rfl⟩
  | none =>
    have hfin : ∀ evs sv nm, create_session_finish run d evs sv nm password = .ok out →
        out.daemon.seat.config = d.seat.config ∧ out.daemon.seat.id = d.seat.id ∧
        out.daemon.seat.next_service = d.seat.next_service ∧
        out.daemon.seat.next_user = d.seat.next_user ∧
        out.daemon.seat.next_password = d.seat.next_password ∧
        ((none : Option TlmSession) ≠ none → out.daemon = d) := by
      intro evs sv nm hf
      obtain ⟨h1, h2, h3, h4, h5⟩ := create_session_finish_frame run d evs sv nm password out hf
      exact ⟨h1, h2, h3, h4, h5, fun hne => absurd rfl hne⟩
    simp only [hs] at h
    cases username with
    | some u => exact hfin _ _ _ h
    | none =>
      simp only at h
      split at h
      · cases h
      · exact hfin _ _ _ h

/-- The invariant behind (I2): the seat still has the configuration it was
built with, and a pending switch implies an occupied slot. -/
theorem pending_invariant_step (as_bool : String → Bool) (config : TlmConfig) (d : Daemon)
    (op : SeatOp) (out : Outcome)
    (h_auto : tlm_config_get_boolean as_bool config (some TLM_CONFIG_GENERAL)
        (some TLM_CONFIG_GENERAL_AUTO_LOGIN) true = true)
    (h_cfg : d.seat.config = config)
    (h_inv : pending_nonempty d.seat = true → d.seat.session ≠ none)
    (h_op : op.is_veto = false)
    (h_step : op.step as_bool d = .ok out) :
    out.daemon.seat.config = config ∧
    (pending_nonempty out.daemon.seat = true → out.daemon.seat.session ≠ none) := by
  have h_create : ∀ run service username password,
      tlm_seat_create_session run d service username password = .ok out →
      out.daemon.seat.config = config ∧
      (pending_nonempty out.daemon.seat = true → out.daemon.seat.session ≠ none) := by
    intro run service username password hc
    obtain ⟨h1, _, h3, h4, h5, h6⟩ := create_session_frame run d service username password out hc
    refine ⟨h1.trans h_cfg, ?_⟩
    intro hp
    have hp' : pending_nonempty d.seat = true := by
      simpa [pending_nonempty, h3, h4, h5] using hp
    have hne := h_inv hp'
    rw [h6 hne]
    exact hne
  cases op with
  | create_session run service username password => exact h_create run service username password h_step
  | switch_user run service username password =>
    simp only [SeatOp.step, tlm_seat_switch_user] at h_step
    split at h_step
    · exact h_create run service username password h_step
    · rename_i session hs
      cases h_step
      exact ⟨h_cfg, fun _ => by simp [hs]⟩
  | terminate_session =>
    simp only [SeatOp.step, tlm_seat_terminate_session] at h_step
    split at h_step <;> · cases h_step; exact ⟨h_cfg, h_inv⟩
  | child_death run cont pid =>
    have hc : cont = true := by simpa [SeatOp.is_veto] using h_op
    subst hc
    simp only [SeatOp.step, _notify_handler, h_cfg, h_auto] at h_step
    simp only [Bool.true_eq_false, if_false, if_true] at h_step
    split at h_step
    · cases h_step
    · rename_i out' hc
      cases h_step
      obtain ⟨h1, _⟩ := create_session_frame _ _ _ _ _ out' hc
      refine ⟨?_, ?_⟩
      · simpa [_reset_next, h_cfg] using h1
      · intro hp
        simp [pending_nonempty_reset_next] at hp

theorem pending_invariant_run (as_bool : String → Bool) (config : TlmConfig)
    (h_auto : tlm_config_get_boolean as_bool config (some TLM_CONFIG_GENERAL)
        (some TLM_CONFIG_GENERAL_AUTO_LOGIN) true = true) :
    ∀ (ops : List SeatOp) (d d' : Daemon) (events : List Event),
      d.seat.config = config →
      (pending_nonempty d.seat = true → d.seat.session ≠ none) →
      (∀ op ∈ ops, op.is_veto = false) →
      run_ops as_bool ops d = .ok (d', events) →
      (pending_nonempty d'.seat = true → d'.seat.session ≠ none) := by
  intro ops
  induction ops with
  | nil =>
    intro d d' events _ h_inv _ h_run
    simp only [run_ops] at h_run
    cases h_run
    exact h_inv
  | cons op ops ih =>
    intro d d' events h_cfg h_inv h_ops h_run
    simp only [run_ops] at h_run
    split at h_run
    · cases h_run
    · rename_i out h_step
      split at h_run
      · cases h_run
      · rename_i d'' events' h_rest
        cases h_run
        obtain ⟨h_cfg', h_inv'⟩ := pending_invariant_step as_bool config d op out h_auto h_cfg h_inv
          (h_ops op (List.mem_cons_self _ _)) h_step
        exact ih out.daemon d' events' h_cfg' h_inv'
          (fun o ho => h_ops o (List.mem_cons_of_mem _ ho)) h_rest

/-- In any step, a pending triple that was empty and is not empty afterwards
was set by `tlm_seat_switch_user` on an occupied slot, which stays occupied by
the same session. -/
theorem pending_set_only_by_switch_user (as_bool : String → Bool) (d : Daemon) (op : SeatOp)
    (out : Outcome) (h_step : op.step as_bool d = .ok out)
    (h_before : pending_nonempty d.seat = false)
    (h_after : pending_nonempty out.daemon.seat = true) :
    ∃ run service username password session,
      op = SeatOp.switch_user run service username password ∧
      d.seat.session = some session ∧ out.daemon.seat.session = some session := by
  have h_create : ∀ run service username password,
      tlm_seat_create_session run d service username password = .ok out → False := by
    intro run service username password hc
    obtain ⟨_, _, h3, h4, h5, _⟩ := create_session_frame run d service username password out hc
    have : pending_nonempty out.daemon.seat = pending_nonempty d.seat := by
      simp [pending_nonempty, h3, h4, h5]
    rw [this, h_before] at h_after
    cases h_after
  cases op with
  | create_session run service username password =>
    exact (h_create run service username password h_step).elim
  | switch_user run service username password =>
    simp only [SeatOp.step, tlm_seat_switch_user] at h_step
    split at h_step
    · exact (h_create run service username password h_step).elim
    · rename_i session hs
      cases h_step
      exact ⟨run, service, username, password, session, rfl, hs, hs⟩
  | terminate_session =>
    simp only [SeatOp.step, tlm_seat_terminate_session] at h_step
    split at h_step <;>
    · cases h_step
      rw [h_before] at h_after
      cases h_after
  | child_death run cont pid =>
    simp only [SeatOp.step, _notify_handler] at h_step
    split at h_step
    · cases h_step
      simp only [pending_nonempty] at h_before h_after
      rw [h_before] at h_after
      cases h_after
    · split at h_step
      · split at h_step
        · cases h_step
        · cases h_step
          simp [pending_nonempty_reset_next] at h_after
      · cases h_step
        simp only [pending_nonempty] at h_before h_after
        rw [h_before] at h_after
        cases h_after

/-- C6, as the claim states it, fails: from the new seat `seat0`, a session for
`alice`, then `switch_user ("login", "bob", "pw")`, then a run of the
child-death handler whose observers answer false, lead to a state with an empty
slot and a pending triple that is not empty. -/
theorem pending_outlives_session :
    ∃ d events, run_ops scenario_as_bool
        [ SeatOp.create_session (auth_success 500) (some "login") (some "alice") (some "secret"),
          SeatOp.switch_user (auth_success 501) (some "login") (some "bob") (some "pw"),
          SeatOp.child_death (auth_success 501) false 500 ]
        ⟨tlm_seat_new scenario_config (some "seat0") none (3, 4), []⟩ = .ok (d, events) ∧
      pending_nonempty d.seat = true ∧ d.seat.session = none :=
  ⟨_, _, rfl, rfl, rfl⟩

/-- C6, amended: in every state reached from a newly constructed seat by a
sequence of `create_session`, `switch_user`, `terminate_session` and runs of
the child-death handler, AutoLogin reading true and the observers answering
continue at every run of the handler, for any outcomes of the authentication,
a pending triple that is not empty comes with an occupied session slot. -/
theorem pending_only_with_session (as_bool : String → Bool) (config : TlmConfig)
    (id path : Option String) (notify_fd : Int × Int) (notify_table : NotifyTable)
    (ops : List SeatOp) (d : Daemon) (events : List Event)
    (h_auto : tlm_config_get_boolean as_bool config (some TLM_CONFIG_GENERAL)
        (some TLM_CONFIG_GENERAL_AUTO_LOGIN) true = true)
    (h_cont : ∀ op ∈ ops, op.is_veto = false)
    (h_run : run_ops as_bool ops ⟨tlm_seat_new config id path notify_fd, notify_table⟩
        = .ok (d, events))
    (h_pending : pending_nonempty d.seat = true) :
    d.seat.session ≠ none :=
  pending_invariant_run as_bool config h_auto ops _ d events rfl
    (by simp [pending_nonempty, tlm_seat_new]) h_cont h_run h_pending

theorem pending_only_with_session_witness :
    scenario_switching.seat.session ≠ none :=
  pending_only_with_session scenario_as_bool scenario_config (some "seat0") none (3, 4) []
    [ SeatOp.create_session (auth_success 500) (some "login") (some "alice") (some "secret"),
      SeatOp.switch_user (auth_success 501) (some "login") (some "bob") (some "pw") ]
    scenario_switching
    [ Event.session_new (some "seat0") (some "login") (some "alice") (some "secret"),
      Event.fork 500, Event.kill 500 SIGHUP, Event.kill 500 SIGTERM ]
    (by decide) (by decide) (by decide) (by decide)

/-! ### The SIGCHLD handler -/

theorem lookup_remove_of_ne {κ ν : Type} [DecidableEq κ] (t : List (κ × ν)) (k k' : κ)
    (h : k' ≠ k) :
    g_hash_table_lookup (g_hash_table_remove t k') k = g_hash_table_lookup t k := by
  induction t with
  | nil => rfl
  | cons e t ih =>
    obtain ⟨a, b⟩ := e
    by_cases h1 : a = k'
    · subst h1
      have h2 : a ≠ k := h
      simp [g_hash_table_remove, g_hash_table_lookup, h2, ih]
    · by_cases h2 : a = k
      · subst h2
        simp [g_hash_table_remove, g_hash_table_lookup, h1]
      · simp [g_hash_table_remove, g_hash_table_lookup, h1, h2, ih]

/-- The entry of the pid survives `_signal_action` whenever the descriptor it
maps to is not the pid itself. -/
theorem signal_action_entry_survives (si_pid : Int) (t : NotifyTable) (fd : Nat)
    (h : g_hash_table_lookup t (GUINT_TO_POINTER si_pid) = some fd)
    (h_ne : fd ≠ GUINT_TO_POINTER si_pid) :
    g_hash_table_lookup (_signal_action SIGCHLD si_pid t).1 (GUINT_TO_POINTER si_pid)
      = some fd := by
  simp only [_signal_action, h]
  by_cases h0 : fd = 0
  · simp [h0, h]
  · simp only [if_true, h0, if_false]
    rw [lookup_remove_of_ne _ _ _ h_ne, h]

/-- C7: with the reaper table that maps child 500 to descriptor 4,
`_signal_action` for SIGCHLD of pid 500 writes the pid to descriptor 4 and
leaves the table as it was, the entry of pid 500 still in it; and when the
table also has an entry for a child with pid 4, it is that entry which is
removed. -/
theorem signal_action_removes_wrong_key :
    _signal_action SIGCHLD 500 [(500, 4)] = ([(500, 4)], [(4, 500)]) ∧
    g_hash_table_lookup (_signal_action SIGCHLD 500 [(500, 4)]).1 (GUINT_TO_POINTER 500)
      = some 4 ∧
    _signal_action SIGCHLD 500 [(500, 4), (4, 9)] = ([(500, 4)], [(4, 500)]) := by
  decide

/-! ### The default user name -/

theorem atoi_of_plain (s : List Char)
    (h_first : (match s with
      | [] => true
      | c :: _ => !isspace c && c != '-' && c != '+') = true)
    (h_small : digits_value 0 s < 2 ^ 31) :
    atoi s = (digits_value 0 s : Int) := by
  have hv : (digits_value 0 s : Int) < 2 ^ 31 := by exact_mod_cast h_small
  have h0 : (0 : Int) ≤ (digits_value 0 s : Int) := Int.natCast_nonneg _
  have hwrap : long_to_int (digits_value 0 s : Int) = (digits_value 0 s : Int) := by
    unfold long_to_int
    rw [Int.emod_eq_of_lt (by omega) (by omega)]
    omega
  cases s with
  | nil => simp [atoi, strtol, long_to_int, digits_value]
  | cons c r =>
    simp only [Bool.and_eq_true, Bool.not_eq_true', bne_iff_ne, ne_eq] at h_first
    obtain ⟨⟨hsp, hm⟩, hp⟩ := h_first
    have hmin : min LONG_MAX (digits_value 0 (c :: r) : Int) = (digits_value 0 (c :: r) : Int) := by
      apply min_eq_right
      unfold LONG_MAX
      omega
    simp only [atoi, strtol, List.dropWhile, hsp, hm, hp, if_false, hmin]
    exact hwrap

theorem seat_num_of_plain (seat_id : String) (h : seat_id_plain seat_id = true) :
    (if starts_with_seat seat_id.data then atoi (seat_id.data.drop 4) else 0)
      = (seat_number_ref seat_id : Int) := by
  unfold seat_id_plain at h
  unfold seat_number_ref
  by_cases hp : starts_with_seat seat_id.data = true
  · have hp' : seat_id.data.take 4 = "seat".data := by
      simpa [starts_with_seat] using hp
    simp only [hp, Bool.not_true, Bool.false_or, Bool.and_eq_true, decide_eq_true_eq] at h
    simp only [hp, if_true, hp']
    exact atoi_of_plain _ h.1 h.2
  · have hp' : ¬ seat_id.data.take 4 = "seat".data := by
      simpa [starts_with_seat] using hp
    simp [hp, hp']

theorem loop_refines (seat_id : String) :
    ∀ (t str : List Char), escapes_complete t = true →
      build_user_name_loop (seat_number_ref seat_id : Int) seat_id.data str t
        = .ok (str ++ build_name_ref_chars seat_id t)
  | [], str, _ => by simp [build_user_name_loop, build_name_ref_chars]
  | [c], str, h => by
    have hc : c ≠ '%' := by simpa [escapes_complete] using h
    simp [build_user_name_loop, build_name_ref_chars, hc]
  | c :: x :: rest, str, h => by
    by_cases hc : c = '%'
    · have hr : escapes_complete rest = true := by simpa [escapes_complete, hc] using h
      by_cases hS : x = 'S'
      · simp only [build_user_name_loop, build_name_ref_chars, hc, hS, if_true]
        rw [loop_refines seat_id rest _ hr]
        simp [printf_d, List.append_assoc]
        rfl
      · by_cases hI : x = 'I'
        · subst hI
          have hIS : ¬ ('I' : Char) = 'S' := by decide
          simp only [build_user_name_loop, build_name_ref_chars, hc, hIS, if_true, if_false]
          rw [loop_refines seat_id rest _ hr]
          simp
        · simp only [build_user_name_loop, build_name_ref_chars, hc, hS, hI, if_true, if_false]
          rw [loop_refines seat_id rest _ hr]
    · have hr : escapes_complete (x :: rest) = true := by simpa [escapes_complete, hc] using h
      simp only [build_user_name_loop, build_name_ref_chars, hc, if_false]
      rw [loop_refines seat_id (x :: rest) _ hr]
      simp

theorem loop_without_percent (seat_num : Int) (seat_id : List Char) :
    ∀ (t str : List Char), '%' ∉ t →
      build_user_name_loop seat_num seat_id str t = .ok (str ++ t)
  | [], str, _ => by simp [build_user_name_loop]
  | c :: rest, str, h => by
    have hc : c ≠ '%' := fun hc => h (by simp [hc])
    have hr : '%' ∉ rest := fun hr => h (by simp [hr])
    rw [build_user_name_loop.eq_def]
    simp only [hc, if_false]
    rw [loop_without_percent seat_num seat_id rest _ hr]
    simp

/-- The scan moves by bytes: in the template `%` followed by `é`, which UTF-8
holds in the bytes 0xC3 and 0xA9, the byte 0xC3 is skipped after the `%` and
the byte 0xA9 is copied. -/
theorem build_user_name_scans_bytes :
    c_string "%\u00e9" = "%\u00c3\u00a9" ∧
    c_string "user%S-%I" = "user%S-%I" ∧
    _build_user_name (some (c_string "%\u00e9")) (some "seat1") = .ok "\u00a9" := by
  decide

/-- C8, as the claim states it, fails: for the template `u%` the scan steps
over the terminator where the reference gives `u%`, and for the seat id
`seat4294967297` the code renders `%S` as `1` where the number after the
prefix is 4294967297. -/
theorem build_user_name_differs_from_reference :
    _build_user_name (some "u%") (some "seat1") = .error .past_terminator ∧
    build_name_ref "u%" "seat1" = "u%" ∧
    _build_user_name (some "%S") (some "seat4294967297") = .ok "1" ∧
    build_name_ref "%S" "seat4294967297" = "4294967297" := by
  decide

/-- C8, amended: for an ASCII template in which every `%` the scan arrives at
has a character after it, and an ASCII seat id that does not start with `seat`
or continues after the prefix with neither white space nor a sign and a number
below 2 ^ 31, `_build_user_name` returns what the reference of §4.5 gives; for
every template without `%` and every seat id it returns the template itself;
and the three examples of (P4) evaluate as stated. -/
theorem build_user_name_refines (template seat_id : String) :
    (is_ascii template.data = true → is_ascii seat_id.data = true →
      escapes_complete template.data = true → seat_id_plain seat_id = true →
      _build_user_name (some template) (some seat_id)
        = .ok (build_name_ref template seat_id)) ∧
    ('%' ∉ template.data →
      _build_user_name (some template) (some seat_id) = .ok template) ∧
    _build_user_name (some "user%S-%I") (some "seat3") = .ok "user3-seat3" ∧
    _build_user_name (some "alice") (some "seat0") = .ok "alice" ∧
    _build_user_name (some "u%X") (some "seat1") = .ok "u" := by
  refine ⟨?_, ?_, by decide, by decide, by decide⟩
  · intro _ _ h_t h_s
    simp only [_build_user_name, seat_num_of_plain seat_id h_s,
      loop_refines seat_id template.data [] h_t]
    simp [build_name_ref]
  · intro h_t
    simp only [_build_user_name, loop_without_percent _ _ template.data [] h_t]
    simp

theorem build_user_name_refines_witness :
    _build_user_name (some "guest%S") (some "seat0")
      = .ok (build_name_ref "guest%S" "seat0") :=
  (build_user_name_refines "guest%S" "seat0").1 (by decide) (by decide) (by decide) (by decide)

/-! ### Creation of a session -/

theorem on_session_created_username (auth_username : Option String) (fork_result : Int)
    (t t' : NotifyTable) (priv priv' : TlmSession) (u : String)
    (h : _session_on_session_created auth_username fork_result t priv = .ok (priv', t'))
    (hu : priv.username = some u) : priv'.username = some u := by
  simp only [_session_on_session_created, hu] at h
  split at h
  · cases h
    rfl
  · cases h

theorem start_session_events (run : AuthRun) (t t' : NotifyTable) (session session' : TlmSession)
    (password : Option String) (events : List Event) (started : Bool)
    (h : _start_session run t session password = .ok (session', t', events, started)) :
    (∀ e ∈ events, e.is_session_new = false ∧ ∀ n, e ≠ Event.prepare_user n) ∧
    (∀ u, session.username = some u → session'.username = some u) := by
  unfold _start_session at h
  split at h
  · cases h
    exact ⟨by simp, fun u hu => hu⟩
  · simp only at h
    split at h
    · split at h
      · cases h
      · rename_i s1 t1 hcb
        cases h
        refine ⟨by simp [Event.is_session_new], fun u hu => ?_⟩
        exact on_session_created_username _ _ _ _ _ _ u hcb hu
    · cases h
      exact ⟨by simp, fun u hu => hu⟩

theorem start_session_returns (run : AuthRun) (h : run.stays_daemon = true) (t : NotifyTable)
    (session : TlmSession) (password : Option String) (e : Abort) :
    _start_session run t session password ≠ .error e := by
  intro he
  unfold _start_session at he
  split at he
  · cases he
  · rename_i hc
    simp only at he
    split at he
    · rename_i auth_username fork_result hsig
      have hr : fork_result ≠ 0 := by
        simpa [AuthRun.stays_daemon, hsig, hc] using h
      simp [_session_on_session_created, hr] at he
    · cases he

theorem session_new_ok (run : AuthRun) (h : run.stays_daemon = true) (t : NotifyTable)
    (config : TlmConfig) (seat_id service username password : Option String)
    (environment : Option (List (String × String))) (fd : Int) :
    ∃ session table rest,
      tlm_session_new run t config seat_id service username password environment fd
        = .ok (session, table, Event.session_new seat_id service username password :: rest) ∧
      (∀ e ∈ rest, e.is_session_new = false ∧ ∀ n, e ≠ Event.prepare_user n) ∧
      (∀ s u, session = some s → username = some u → s.username = some u) := by
  simp only [tlm_session_new]
  split
  · rename_i e he
    exact absurd he (start_session_returns run h _ _ _ e)
  · rename_i session' t' events started hs
    obtain ⟨hev, hname⟩ := start_session_events _ _ _ _ _ _ _ _ hs
    cases started with
    | true =>
      refine ⟨some session', t', events, by simp, hev, ?_⟩
      intro s u hsome hu
      cases hsome
      exact hname u hu
    | false =>
      refine ⟨none, t', events ++ [Event.session_unref session'], by simp, ?_, ?_⟩
      · intro e he
        rcases List.mem_append.mp he with he | he
        · exact hev e he
        · simp only [List.mem_singleton] at he
          subst he
          simp [Event.is_session_new]
      · intro s u hsome
        cases hsome

theorem create_session_finish_ok (run : AuthRun) (h : run.stays_daemon = true) (d : Daemon)
    (events : List Event) (service name password : Option String)
    (h_slot : d.seat.session = none) :
    ∃ out rest,
      create_session_finish run d events service name password = .ok out ∧
      out.events = events ++ Event.session_new d.seat.id service name password :: rest ∧
      (∀ e ∈ rest, e.is_session_new = false ∧ ∀ n, e ≠ Event.prepare_user n) ∧
      (∀ s u, out.daemon.seat.session = some s → name = some u → s.username = some u) := by
  obtain ⟨session, table, rest, hnew, hrest, hname⟩ :=
    session_new_ok run h d.notify_table d.seat.config d.seat.id service name password none
      d.seat.notify_fd.2
  refine ⟨⟨⟨{ d.seat with session := session }, table⟩,
           events ++ Event.session_new d.seat.id service name password :: rest,
           session.isSome⟩, rest, ?_, rfl, hrest, ?_⟩
  · simp only [create_session_finish, h_slot, hnew]
  · intro s u hs hu
    exact hname s u hs hu

/-- C9, as the claim states it, fails: with a configuration that has no
`DefaultUser`, `create_session (NULL, NULL, NULL)` on the empty seat `seat0`
hands a `NULL` template to `_build_user_name` and ends there, `prepare-user`
not emitted although the username is `NULL`. -/
theorem create_session_without_default_user :
    tlm_seat_create_session (auth_success 500)
        ⟨tlm_seat_new config_without_default_user (some "seat0") none (3, 4), []⟩
        none none none
      = .error .null_pointer := by
  decide

/-- C9, amended: a call of `tlm_seat_create_session` in the daemon on a seat
with an empty slot returns; with a username it emits no `prepare-user` and
calls `tlm_session_new` once, with that username; with a `NULL` username, when
`_build_user_name` on the `DefaultUser` template of the seat group, else of
`General`, and the seat id gives a name, it emits `prepare-user` once, with
that name, then calls `tlm_session_new` once, with the same name. The session
that lands in the slot carries the name that was passed. -/
theorem create_session_prepare_user (run : AuthRun) (d : Daemon)
    (service username password : Option String)
    (h_slot : d.seat.session = none) (h_stay : run.stays_daemon = true)
    (h_name : username = none →
      ∃ name, _build_user_name
        (seat_config_string d.seat.config d.seat.id TLM_CONFIG_GENERAL_DEFAULT_USER)
        d.seat.id = .ok name) :
    ∃ out svc rest,
      tlm_seat_create_session run d service username password = .ok out ∧
      (∀ e ∈ rest, e.is_session_new = false ∧ ∀ n, e ≠ Event.prepare_user n) ∧
      ((∃ u, username = some u ∧
          out.events = Event.session_new d.seat.id svc (some u) password :: rest ∧
          ∀ s, out.daemon.seat.session = some s → s.username = some u) ∨
       (username = none ∧
        ∃ name, _build_user_name
            (seat_config_string d.seat.config d.seat.id TLM_CONFIG_GENERAL_DEFAULT_USER)
            d.seat.id = .ok name ∧
          out.events = Event.prepare_user name ::
            Event.session_new d.seat.id svc (some name) password :: rest ∧
          ∀ s, out.daemon.seat.session = some s → s.username = some name)) := by
  have hsvc : ∃ svc : Option String, svc =
      (match service with
       | some s => some s
       | none =>
         seat_config_string d.seat.config d.seat.id TLM_CONFIG_GENERAL_PAM_SERVICE) :=
    ⟨_, rfl⟩
  obtain ⟨svc, hsvc⟩ := hsvc
  simp only [seat_config_string] at hsvc
  cases username with
  | some u =>
    obtain ⟨out, rest, hfin, hev, hrest, hname⟩ :=
      create_session_finish_ok run h_stay d [] svc (some u) password h_slot
    refine ⟨out, svc, rest, ?_, hrest, Or.inl ⟨u, rfl, ?_, fun s hs => hname s u hs rfl⟩⟩
    · simp only [tlm_seat_create_session, h_slot, ← hsvc]
      exact hfin
    · simpa using hev
  | none =>
    obtain ⟨name, hbuild⟩ := h_name rfl
    obtain ⟨out, rest, hfin, hev, hrest, hname⟩ :=
      create_session_finish_ok run h_stay d [Event.prepare_user name] svc (some name) password
        h_slot
    refine ⟨out, svc, rest, ?_, hrest,
      Or.inr ⟨rfl, name, hbuild, ?_, fun s hs => hname s name hs rfl⟩⟩
    · simp only [seat_config_string] at hbuild
      simp only [tlm_seat_create_session, h_slot, hbuild, ← hsvc]
      exact hfin
    · simpa using hev

theorem create_session_prepare_user_witness :
    (∃ out svc rest,
      tlm_seat_create_session (auth_success 500) scenario_idle none none none = .ok out ∧
      (∀ e ∈ rest, e.is_session_new = false ∧ ∀ n, e ≠ Event.prepare_user n) ∧
      ((∃ u, (none : Option String) = some u ∧
          out.events = Event.session_new scenario_idle.seat.id svc (some u) none :: rest ∧
          ∀ s, out.daemon.seat.session = some s → s.username = some u) ∨
       ((none : Option String) = none ∧
        ∃ name, _build_user_name
            (seat_config_string scenario_idle.seat.config scenario_idle.seat.id
              TLM_CONFIG_GENERAL_DEFAULT_USER)
            scenario_idle.seat.id = .ok name ∧
          out.events = Event.prepare_user name ::
            Event.session_new scenario_idle.seat.id svc (some name) none :: rest ∧
          ∀ s, out.daemon.seat.session = some s → s.username = some name))) ∧
    (∃ out, tlm_seat_create_session (auth_success 500) scenario_idle none none none = .ok out ∧
      out.events = [Event.prepare_user "guest0",
        Event.session_new (some "seat0") (some "tlm-login") (some "guest0") none,
        Event.fork 500]) :=
  ⟨create_session_prepare_user (auth_success 500) scenario_idle none none none rfl (by decide)
      (fun _ => ⟨"guest0", by decide⟩),
   ⟨_, rfl, rfl⟩⟩

/-- C10: on a seat with an empty slot, a call with a `NULL` service hands
`tlm_session_new` the `PAMService` string of the group named by the seat id
when `tlm_config_get_string` finds one there, and the string of `General` when
it finds none; a call with a `NULL` username runs `_build_user_name` on the
`DefaultUser` string of the seat group when there is one, and on the string of
`General` when there is none. For group and key names that are not empty
`tlm_config_get_string` is the lookup of the key in the table of the group. -/
theorem create_session_config_fallback (run : AuthRun) (d : Daemon)
    (service username password : Option String) (h_slot : d.seat.session = none) :
    (∀ v out,
      tlm_config_get_string d.seat.config d.seat.id (some TLM_CONFIG_GENERAL_PAM_SERVICE)
        = some v →
      tlm_seat_create_session run d none username password = .ok out →
      ∃ name, Event.session_new d.seat.id (some v) name password ∈ out.events) ∧
    (∀ out,
      tlm_config_get_string d.seat.config d.seat.id (some TLM_CONFIG_GENERAL_PAM_SERVICE)
        = none →
      tlm_seat_create_session run d none username password = .ok out →
      ∃ name, Event.session_new d.seat.id
        (tlm_config_get_string d.seat.config (some TLM_CONFIG_GENERAL)
          (some TLM_CONFIG_GENERAL_PAM_SERVICE)) name password ∈ out.events) ∧
    (∀ t,
      tlm_config_get_string d.seat.config d.seat.id (some TLM_CONFIG_GENERAL_DEFAULT_USER)
        = some t →
      ∃ svc, tlm_seat_create_session run d service none password =
        (match _build_user_name (some t) d.seat.id with
         | .error e => .error e
         | .ok name =>
           create_session_finish run d [Event.prepare_user name] svc (some name) password)) ∧
    (tlm_config_get_string d.seat.config d.seat.id (some TLM_CONFIG_GENERAL_DEFAULT_USER)
        = none →
      ∃ svc, tlm_seat_create_session run d service none password =
        (match _build_user_name
            (tlm_config_get_string d.seat.config (some TLM_CONFIG_GENERAL)
              (some TLM_CONFIG_GENERAL_DEFAULT_USER)) d.seat.id with
         | .error e => .error e
         | .ok name =>
           create_session_finish run d [Event.prepare_user name] svc (some name) password)) ∧
    (∀ g k : String, g ≠ "" → k ≠ "" →
      tlm_config_get_string d.seat.config (some g) (some k) =
        (match g_hash_table_lookup d.seat.config.config_table g with
         | none => none
         | some group_table => g_hash_table_lookup group_table k)) := by
  have h_events : ∀ svc out,
      tlm_seat_create_session run d none username password = .ok out →
      (match tlm_config_get_string d.seat.config d.seat.id
                (some TLM_CONFIG_GENERAL_PAM_SERVICE) with
        | some s => some s
        | none => tlm_config_get_string d.seat.config (some TLM_CONFIG_GENERAL)
                    (some TLM_CONFIG_GENERAL_PAM_SERVICE)) = svc →
      ∃ name, Event.session_new d.seat.id svc name password ∈ out.events := by
    intro svc out hout hsvc
    have hfin : ∀ evs nm, create_session_finish run d evs svc nm password = .ok out →
        ∃ name, Event.session_new d.seat.id svc name password ∈ out.events := by
      intro evs nm hf
      simp only [create_session_finish, h_slot] at hf
      split at hf
      · cases hf
      · rename_i session table new_events hnew
        cases hf
        exact ⟨nm, List.mem_append_right _ (session_new_events _ _ _ _ _ _ _ _ _ _ hnew)⟩
    simp only [tlm_seat_create_session, h_slot, hsvc] at hout
    cases username with
    | some u => exact hfin _ _ hout
    | none =>
      simp only at hout
      split at hout
      · cases hout
      · exact hfin _ _ hout
  refine ⟨?_, ?_, ?_, ?_, ?_⟩
  · intro v out hv hout
    exact h_events (some v) out hout (by simp [hv])
  · intro out hv hout
    exact h_events _ out hout (by simp [hv])
  · intro t ht
    exact ⟨(match service with
            | some s => some s
            | none =>
              seat_config_string d.seat.config d.seat.id TLM_CONFIG_GENERAL_PAM_SERVICE),
      by simp only [tlm_seat_create_session, h_slot, ht, seat_config_string]⟩
  · intro ht
    exact ⟨(match service with
            | some s => some s
            | none =>
              seat_config_string d.seat.config d.seat.id TLM_CONFIG_GENERAL_PAM_SERVICE),
      by simp only [tlm_seat_create_session, h_slot, ht, seat_config_string]⟩
  · intro g k hg hk
    simp only [tlm_config_get_string, tlm_config_get_value, tlm_config_get_group, hg, hk,
      if_false]
    cases g_hash_table_lookup d.seat.config.config_table g with
    | none => rfl
    | some group_table =>
      simp only []
      cases g_hash_table_lookup group_table k <;> rfl

theorem create_session_config_fallback_witness :
    ∃ name, Event.session_new (some "seat0") (some "tlm-seat0") name (some "secret") ∈
      [Event.session_new (some "seat0") (some "tlm-seat0") (some "alice") (some "secret"),
       Event.fork 500] :=
  (create_session_config_fallback (auth_success 500)
    ⟨tlm_seat_new config_with_seat_group (some "seat0") none (3, 4), []⟩
    none (some "alice") (some "secret") rfl).1 "tlm-seat0"
    ⟨⟨{ tlm_seat_new config_with_seat_group (some "seat0") none (3, 4) with
          session := some { config := config_with_seat_group, notify_fd := 4, child_pid := 500,
                            seat_id := some "seat0", service := some "tlm-seat0",
                            username := some "alice", env_hash := none,
                            auth_session := true } },
       [(500, 4)]⟩,
      [Event.session_new (some "seat0") (some "tlm-seat0") (some "alice") (some "secret"),
       Event.fork 500], true⟩
    (by decide) (by decide)

/-! ### Typed access to the store -/

/-- A lookup with a `NULL` or an empty group name finds nothing. -/
theorem get_string_without_group (self : TlmConfig) (key : Option String) :
    tlm_config_get_string self none key = none ∧
    tlm_config_get_string self (some "") key = none := by
  cases key with
  | none => exact ⟨rfl, rfl⟩
  | some k =>
    by_cases hk : k = ""
    · simp [tlm_config_get_string, hk]
    · simp [tlm_config_get_string, tlm_config_get_value, tlm_config_get_group, hk]

/-- C18: in the store whose `General` group maps `Timeout` to the text `abc`,
`tlm_config_get_int (self, "General", "Timeout", 7)` returns 0, the value
`atoi` gives for a text that is no number, and not the `retval` 7; for the text
`12abc` it would return 12. A key that is missing does give `retval`. -/
theorem get_int_of_text_is_zero :
    tlm_config_get_int config_with_text_number (some "General") (some "Timeout") 7 = 0 ∧
    tlm_config_get_int (tlm_config_set_string config_with_text_number (some "General")
      (some "Timeout") "12abc") (some "General") (some "Timeout") 7 = 12 ∧
    tlm_config_get_int config_with_text_number (some "General") (some "Missing") 7 = 7 := by
  decide

/-- C19: with `PAMService` stored in `General`, a lookup with a `NULL` group
returns `NULL` where the lookup with `General` returns the value; and a value
written by `tlm_config_set_string` with a `NULL` group lands in `General` and
is not read back with a `NULL` group. -/
theorem get_string_null_group_misses :
    tlm_config_get_string config_with_text_number none (some "PAMService") = none ∧
    tlm_config_get_string config_with_text_number (some "General") (some "PAMService")
      = some "tlm-login" ∧
    tlm_config_get_string
      (tlm_config_set_string config_with_text_number none (some "SessionCmd") "/bin/sh")
      none (some "SessionCmd") = none ∧
    tlm_config_get_string
      (tlm_config_set_string config_with_text_number none (some "SessionCmd") "/bin/sh")
      (some "General") (some "SessionCmd") = some "/bin/sh" := by
  decide

/-! ### The command line of the session -/

theorem setenv_scan_ok (name value : String) :
    ∀ environ : Environ, environ_live environ = true →
      ∃ environ', setenv_scan name value environ = .ok environ' ∧
        environ_live environ' = true ∧
        getenv name environ' = .ok (some value) ∧
        ∀ other, other ≠ name → getenv other environ' = getenv other environ
  | [], _ => ⟨[.var name value], rfl, rfl, by simp [getenv], fun other h => by
      simp [getenv, Ne.symm h]⟩
  | .freed :: rest, h => by simp [environ_live] at h
  | .var n v :: rest, h => by
    have hrest : environ_live rest = true := by simpa [environ_live] using h
    by_cases hn : n = name
    · subst hn
      refine ⟨.var n value :: rest, by simp [setenv_scan], by simpa [environ_live] using hrest,
        by simp [getenv], ?_⟩
      intro other ho
      simp [getenv, Ne.symm ho]
    · obtain ⟨rest', h1, h2, h3, h4⟩ := setenv_scan_ok name value rest hrest
      refine ⟨.var n v :: rest', by simp [setenv_scan, hn, h1],
        by simpa [environ_live] using h2, by simp [getenv, hn, h3], ?_⟩
      intro other ho
      by_cases hno : n = other
      · simp [getenv, hno]
      · simp [getenv, hno, h4 other ho]

theorem set_environment_ok (priv : TlmSession) (environ : Environ)
    (user seat home shell : String)
    (h_hash : priv.env_hash = none) (h_user : priv.username = some user)
    (h_seat : priv.seat_id = some seat) (h_live : environ_live environ = true) :
    ∃ environ', _set_environment none (some home) (some shell) priv environ = .ok environ' ∧
      environ_live environ' = true ∧
      getenv "SHELL" environ' = .ok (some shell) ∧
      getenv "HOME" environ' = .ok (some home) := by
  obtain ⟨e1, h1, l1, -, -⟩ := setenv_scan_ok "PATH"
    (match tlm_config_get_string priv.config (some TLM_CONFIG_GENERAL)
            (some TLM_CONFIG_GENERAL_SESSION_PATH) with
     | some path => path
     | none => "/usr/local/bin:/usr/bin:/bin") environ h_live
  obtain ⟨e2, h2, l2, -, -⟩ := setenv_scan_ok "USER" user e1 l1
  obtain ⟨e3, h3, l3, -, -⟩ := setenv_scan_ok "LOGNAME" user e2 l2
  obtain ⟨e4, h4, l4, g4, -⟩ := setenv_scan_ok "HOME" home e3 l3
  obtain ⟨e5, h5, l5, g5, k5⟩ := setenv_scan_ok "SHELL" shell e4 l4
  obtain ⟨e6, h6, l6, -, k6⟩ := setenv_scan_ok "XDG_SEAT" seat e5 l5
  obtain ⟨e7, h7, l7, -, k7⟩ := setenv_scan_ok "XDG_DATA_DIRS"
    (match tlm_config_get_string priv.config (some TLM_CONFIG_GENERAL)
            (some TLM_CONFIG_GENERAL_DATA_DIRS) with
     | some dirs => dirs
     | none => "/usr/share:/usr/local/share") e6 l6
  refine ⟨e7, ?_, l7, ?_, ?_⟩
  · have n1 : env_name_ok "PATH" = true := by decide
    have n2 : env_name_ok "USER" = true := by decide
    have n3 : env_name_ok "LOGNAME" = true := by decide
    have n4 : env_name_ok "HOME" = true := by decide
    have n5 : env_name_ok "SHELL" = true := by decide
    have n6 : env_name_ok "XDG_SEAT" = true := by decide
    have n7 : env_name_ok "XDG_DATA_DIRS" = true := by decide
    simp only [_set_environment, h_hash, h_user, h_seat, setenv, bind, Except.bind, pure,
      Except.pure, n1, n2, n3, n4, n5, n6, n7, if_true, h1, h2, h3, h4, h5, h6, h7]
  · rw [k7 "SHELL" (by decide), k6 "SHELL" (by decide), g5]
  · rw [k7 "HOME" (by decide), k6 "HOME" (by decide), k5 "HOME" (by decide), g4]

/-! ### The argument vector -/

theorem session_child_of_args (as_bool : String → Bool) (os : ChildOs) (priv : TlmSession)
    (environ : Environ) (home : Option String) (file : String) (rest : List String)
    (h_env : _set_environment os.pam_envlist os.home_dir os.shell priv os.environ
      = .ok environ)
    (h_home : getenv "HOME" environ = .ok home)
    (h_args : session_args priv.config environ = .ok (file :: rest)) :
    session_child as_bool os priv =
      .ok ⟨child_prologue as_bool os priv ++ child_chdir os home
             ++ [Syscall.execvp file (file :: rest)],
           environ,
           if os.execvp_returns then ChildEnd.returned else ChildEnd.replaced⟩ := by
  simp only [session_child, h_env, h_home, h_args]

theorem session_child_shape (as_bool : String → Bool) (os : ChildOs) (priv : TlmSession)
    (run : ChildRun) (h : session_child as_bool os priv = .ok run) :
    ∃ environ home file rest,
      _set_environment os.pam_envlist os.home_dir os.shell priv os.environ = .ok environ ∧
      getenv "HOME" environ = .ok home ∧
      session_args priv.config environ = .ok (file :: rest) ∧
      run = ⟨child_prologue as_bool os priv ++ child_chdir os home
             ++ [Syscall.execvp file (file :: rest)],
           environ,
           if os.execvp_returns then ChildEnd.returned else ChildEnd.replaced⟩ := by
  unfold session_child at h
  split at h
  · cases h
  · rename_i environ h_env
    split at h
    · cases h
    · rename_i home h_home
      split at h
      · cases h
      · rename_i args h_args
        split at h
        · cases h
        · rename_i file rest
          cases h
          exact ⟨environ, home, file, rest, h_env, h_home, h_args, rfl⟩

/-- C12, as the claim states it, fails: the daemon runs with `SHELL=/bin/zsh`,
`SessionCmd` is not configured, the login shell of `alice` is `/bin/bash`, and
the child executes `/bin/bash`, not `/bin/zsh`. -/
theorem default_command_ignores_parent_shell :
    getenv "SHELL" alice_child_os.environ = .ok (some "/bin/zsh") ∧
    tlm_config_get_string alice_session.config (some TLM_CONFIG_GENERAL)
      (some TLM_CONFIG_GENERAL_SESSION_CMD) = none ∧
    ∃ run, session_child scenario_as_bool alice_child_os alice_session = .ok run ∧
      run.calls.getLast? = some (Syscall.execvp "/bin/bash" ["/bin/bash"]) := by
  refine ⟨by decide, by decide, _, rfl, by decide⟩

/-- C12, amended: when `SessionCmd` is absent from `General`, the vector is
the one string `s` when `SHELL` has the value `s` in the environment of the
child at that point, and `systemd`, `--user` when `SHELL` is not in it. That
environment is the one `_set_environment` has built: with no PAM environment
list and no overrides, `SHELL` is there the login shell that
`tlm_user_get_shell` gives for the user, whatever `SHELL` was in the
environment of the daemon, and the child executes that login shell. -/
theorem default_command_is_login_shell (as_bool : String → Bool) (os : ChildOs)
    (priv : TlmSession) (user seat home shell : String)
    (h_cmd : tlm_config_get_string priv.config (some TLM_CONFIG_GENERAL)
      (some TLM_CONFIG_GENERAL_SESSION_CMD) = none)
    (h_pam : os.pam_envlist = none) (h_hash : priv.env_hash = none)
    (h_user : priv.username = some user) (h_seat : priv.seat_id = some seat)
    (h_home : os.home_dir = some home) (h_shell : os.shell = some shell)
    (h_live : environ_live os.environ = true) :
    (∀ environ : Environ, session_args priv.config environ =
      (match getenv "SHELL" environ with
       | .error e => .error e
       | .ok (some s) => .ok [s]
       | .ok none => .ok ["systemd", "--user"])) ∧
    (∃ run, session_child as_bool os priv = .ok run ∧
      getenv "SHELL" run.environ = .ok (some shell) ∧
      run.calls.getLast? = some (Syscall.execvp shell [shell])) := by
  have h_args : ∀ environ : Environ, session_args priv.config environ =
      (match getenv "SHELL" environ with
       | .error e => .error e
       | .ok (some s) => .ok [s]
       | .ok none => .ok ["systemd", "--user"]) := by
    intro environ
    simp only [session_args, h_cmd]
  refine ⟨h_args, ?_⟩
  obtain ⟨environ, h_env, _, g_shell, g_home⟩ :=
    set_environment_ok priv os.environ user seat home shell h_hash h_user h_seat h_live
  have h_env' : _set_environment os.pam_envlist os.home_dir os.shell priv os.environ
      = .ok environ := by
    rw [h_pam, h_home, h_shell]
    exact h_env
  have h_a : session_args priv.config environ = .ok [shell] := by
    rw [h_args environ, g_shell]
  refine ⟨_, session_child_of_args as_bool os priv environ (some home) shell [] h_env' g_home
    h_a, g_shell, ?_⟩
  simp

theorem default_command_is_login_shell_witness :
    ∃ run, session_child scenario_as_bool alice_child_os alice_session = .ok run ∧
      getenv "SHELL" run.environ = .ok (some "/bin/bash") ∧
      run.calls.getLast? = some (Syscall.execvp "/bin/bash" ["/bin/bash"]) :=
  (default_command_is_login_shell scenario_as_bool alice_child_os alice_session "alice" "seat0"
    "/home/alice" "/bin/bash" (by decide) rfl rfl rfl rfl rfl rfl (by decide)).2

/-- Whenever `execvp` returns, the callback returns to its caller in the
child. -/
theorem child_returns_when_exec_fails (as_bool : String → Bool) (os : ChildOs)
    (priv : TlmSession) (run : ChildRun) (h : session_child as_bool os priv = .ok run)
    (h_exec : os.execvp_returns = true) : run.ending = ChildEnd.returned := by
  obtain ⟨environ, home, file, rest, _, _, _, hrun⟩ := session_child_shape as_bool os priv run h
  rw [hrun]
  simp [h_exec]

/-- C15: in the child of the session of `alice`, when `execvp` of her login
shell returns, the callback returns to its caller: nothing after `execvp`
ends the process. -/
theorem child_survives_failed_exec :
    ∃ run, session_child scenario_as_bool { alice_child_os with execvp_returns := true }
        alice_session = .ok run ∧
      run.calls.getLast? = some (Syscall.execvp "/bin/bash" ["/bin/bash"]) ∧
      run.ending = ChildEnd.returned := by
  refine ⟨_, rfl, by decide, by decide⟩

/-! ### The privilege transition -/

theorem filter_warn_if (failed : Bool) (text : String) (p : Syscall → Bool)
    (hp : p (Syscall.warn text) = false) : (warn_if failed text).filter p = [] := by
  cases failed <;> simp [warn_if, hp]

theorem prologue_privilege_calls (as_bool : String → Bool) (os : ChildOs) (priv : TlmSession) :
    (child_prologue as_bool os priv).filter Syscall.is_privilege =
      [Syscall.fchown 0 os.target_uid (-1), Syscall.initgroups priv.username os.target_gid,
       Syscall.setregid os.target_gid os.target_gid,
       Syscall.setreuid os.target_uid os.target_uid] := by
  simp only [child_prologue, List.filter_append, filter_warn_if _ _ Syscall.is_privilege rfl]
  split <;> split <;>
    simp [Syscall.is_privilege, List.filter_append,
      filter_warn_if _ _ Syscall.is_privilege rfl]

theorem prologue_without_warnings (as_bool : String → Bool) (os : ChildOs) (priv : TlmSession)
    (f1 f2 f3 f4 : Bool) :
    (child_prologue as_bool (os.with_failures f1 f2 f3 f4) priv).filter
        (fun c => !c.is_warn)
      = (child_prologue as_bool os priv).filter (fun c => !c.is_warn) := by
  simp only [child_prologue, ChildOs.with_failures, List.filter_append,
    filter_warn_if _ _ (fun c => !c.is_warn) rfl]

/-- C20: in every run of the child the four calls of the privilege transition
are, in this order and once each, `fchown (0, target_uid, -1)`,
`initgroups (username, target_gid)`, `setregid (target_gid, target_gid)`,
`setreuid (target_uid, target_uid)`; and whichever of the four fail, the child
makes the same calls apart from the warnings, builds the same environment and
ends with the same `execvp`. -/
theorem privilege_drop_never_aborts (as_bool : String → Bool) (os : ChildOs)
    (priv : TlmSession) (run : ChildRun) (f1 f2 f3 f4 : Bool)
    (h_run : session_child as_bool os priv = .ok run) :
    ∃ run', session_child as_bool (os.with_failures f1 f2 f3 f4) priv = .ok run' ∧
      run'.calls.filter Syscall.is_privilege =
        [Syscall.fchown 0 os.target_uid (-1), Syscall.initgroups priv.username os.target_gid,
         Syscall.setregid os.target_gid os.target_gid,
         Syscall.setreuid os.target_uid os.target_uid] ∧
      run'.calls.filter (fun c => !c.is_warn) = run.calls.filter (fun c => !c.is_warn) ∧
      run'.environ = run.environ ∧ run'.ending = run.ending ∧
      (∃ file args, run'.calls.getLast? = some (Syscall.execvp file args)) := by
  obtain ⟨environ, home, file, rest, h_env, h_home, h_args, hrun⟩ :=
    session_child_shape as_bool os priv run h_run
  have h_child := session_child_of_args as_bool (os.with_failures f1 f2 f3 f4) priv environ
    home file rest h_env h_home h_args
  refine ⟨_, h_child, ?_, ?_, ?_, ?_, ⟨file, file :: rest, by simp⟩⟩
  · have hp := prologue_privilege_calls as_bool (os.with_failures f1 f2 f3 f4) priv
    simp only [List.filter_append, hp]
    cases home <;> simp [child_chdir, ChildOs.with_failures, Syscall.is_privilege,
      filter_warn_if _ _ Syscall.is_privilege rfl]
  · rw [hrun]
    simp only [List.filter_append, prologue_without_warnings]
    rfl
  · rw [hrun]
  · rw [hrun]
    rfl

theorem privilege_drop_never_aborts_witness :
    ∃ run', session_child scenario_as_bool (alice_child_os.with_failures true true true true)
        alice_session = .ok run' ∧
      run'.calls.filter Syscall.is_privilege =
        [Syscall.fchown 0 1000 (-1), Syscall.initgroups (some "alice") 1000,
         Syscall.setregid 1000 1000, Syscall.setreuid 1000 1000] ∧
      run'.calls.filter (fun c => !c.is_warn)
        = [Syscall.fchown 0 1000 (-1), Syscall.initgroups (some "alice") 1000,
           Syscall.setregid 1000 1000, Syscall.setreuid 1000 1000, Syscall.getgroups,
           Syscall.chdir "/home/alice", Syscall.execvp "/bin/bash" ["/bin/bash"]] ∧
      run'.environ =
        [.var "PATH" "/usr/local/bin:/usr/bin:/bin", .var "SHELL" "/bin/bash",
         .var "USER" "alice", .var "LOGNAME" "alice", .var "HOME" "/home/alice",
         .var "XDG_SEAT" "seat0", .var "XDG_DATA_DIRS" "/usr/share:/usr/local/share"] ∧
      run'.ending = ChildEnd.replaced ∧
      (∃ file args, run'.calls.getLast? = some (Syscall.execvp file args)) :=
  privilege_drop_never_aborts scenario_as_bool alice_child_os alice_session
    ⟨[Syscall.fchown 0 1000 (-1), Syscall.initgroups (some "alice") 1000,
      Syscall.setregid 1000 1000, Syscall.setreuid 1000 1000, Syscall.getgroups,
      Syscall.chdir "/home/alice", Syscall.execvp "/bin/bash" ["/bin/bash"]],
     [.var "PATH" "/usr/local/bin:/usr/bin:/bin", .var "SHELL" "/bin/bash",
      .var "USER" "alice", .var "LOGNAME" "alice", .var "HOME" "/home/alice",
      .var "XDG_SEAT" "seat0", .var "XDG_DATA_DIRS" "/usr/share:/usr/local/share"],
     ChildEnd.replaced⟩
    true true true true (by decide)

/-! ### Errors of the authentication and of `fork` -/

theorem session_new_after_error (run : AuthRun) (t : NotifyTable) (config : TlmConfig)
    (seat_id service username password : Option String)
    (environment : Option (List (String × String))) (fd : Int)
    (h_sig : run.signal = .auth_error ∨ run.signal = .session_error) :
    ∃ session, session.child_pid = 0 ∧
      tlm_session_new run t config seat_id service username password environment fd
        = .ok (if (run.created && run.started) = true then some session else none, t,
               Event.session_new seat_id service username password ::
                 (if (run.created && run.started) = true then []
                  else [Event.session_unref session])) := by
  refine ⟨{ config := config, notify_fd := fd, child_pid := 0, seat_id := seat_id,
            service := service, username := username, env_hash := environment,
            auth_session := run.created }, rfl, ?_⟩
  cases hc : run.created with
  | false => simp [tlm_session_new, _start_session, hc]
  | true =>
    cases hs : run.started <;> rcases h_sig with h | h <;>
      simp [tlm_session_new, _start_session, hc, h, hs]

/-- C13, as the claim states it, fails: the handler of `auth-error` only
writes a log line, so when the start of the authentication returns TRUE and
`auth-error` is emitted, `tlm_seat_create_session` returns TRUE and the
session, which has no child, stays in the slot; the next call on the seat is
turned away at the slot test. -/
theorem auth_error_leaves_session :
    tlm_seat_create_session auth_error_after_start scenario_idle (some "login")
        (some "nobody") (some "wrong")
      = .ok ⟨⟨{ scenario_idle.seat with
                  session := some { config := scenario_config, notify_fd := 4, child_pid := 0,
                                    seat_id := some "seat0", service := some "login",
                                    username := some "nobody", env_hash := none,
                                    auth_session := true } }, []⟩,
             [Event.session_new (some "seat0") (some "login") (some "nobody") (some "wrong")],
             true⟩ ∧
    run_ops scenario_as_bool
        [.create_session auth_error_after_start (some "login") (some "nobody") (some "wrong"),
         .create_session (auth_success 500) (some "login") (some "alice") (some "secret")]
        scenario_idle
      = .ok (⟨{ scenario_idle.seat with
                  session := some { config := scenario_config, notify_fd := 4, child_pid := 0,
                                    seat_id := some "seat0", service := some "login",
                                    username := some "nobody", env_hash := none,
                                    auth_session := true } }, []⟩,
             [Event.session_new (some "seat0") (some "login") (some "nobody")
                (some "wrong")]) := by
  decide

/-- C13, amended: a call of `tlm_seat_create_session` on an empty slot during
which `auth-error` or `session-error` is emitted calls `tlm_session_new` once,
does not fork and leaves the reaper table as it was, and it returns what
`tlm_auth_session_start` returned (FALSE when the authentication session could
not be made). When that is FALSE the session is released, the slot stays empty
and a later call on the seat is not turned away at the slot test but goes on
to construct a session. When it is TRUE the session stays in the slot with the
`child_pid` 0 and every later call of `tlm_seat_create_session` on the seat is
turned away: it returns FALSE and changes nothing. -/
theorem create_session_auth_error (run : AuthRun) (d : Daemon)
    (service username password : Option String)
    (h_slot : d.seat.session = none)
    (h_sig : run.signal = .auth_error ∨ run.signal = .session_error)
    (h_name : username = none →
      ∃ name, _build_user_name
        (seat_config_string d.seat.config d.seat.id TLM_CONFIG_GENERAL_DEFAULT_USER)
        d.seat.id = .ok name) :
    ∃ out, tlm_seat_create_session run d service username password = .ok out ∧
      out.ret = (run.created && run.started) ∧
      out.daemon.notify_table = d.notify_table ∧
      (∀ e ∈ out.events, ∀ r, e ≠ Event.fork r) ∧
      ((out.events.filter Event.is_session_new).length = 1) ∧
      ((run.created && run.started) = false →
        out.daemon.seat.session = none ∧
        (∃ session, Event.session_unref session ∈ out.events) ∧
        ∀ (run2 : AuthRun) (service2 password2 : Option String) (user2 : String),
          run2.stays_daemon = true →
          ∃ out2, tlm_seat_create_session run2 out.daemon service2 (some user2) password2
              = .ok out2 ∧
            ∃ e ∈ out2.events, e.is_session_new = true) ∧
      ((run.created && run.started) = true →
        (∃ session, out.daemon.seat.session = some session ∧ session.child_pid = 0) ∧
        ∀ (run2 : AuthRun) (service2 username2 password2 : Option String),
          tlm_seat_create_session run2 out.daemon service2 username2 password2
            = .ok ⟨out.daemon, [], false⟩) := by
  have h_again : ∀ out : Outcome, out.daemon.seat.session = none →
      ∀ (run2 : AuthRun) (service2 password2 : Option String) (user2 : String),
        run2.stays_daemon = true →
        ∃ out2, tlm_seat_create_session run2 out.daemon service2 (some user2) password2
            = .ok out2 ∧
          ∃ e ∈ out2.events, e.is_session_new = true := by
    intro out hnone run2 service2 password2 user2 hstay
    have hsvc : ∃ svc : Option String, svc =
        (match service2 with
         | some s => some s
         | none =>
           seat_config_string out.daemon.seat.config out.daemon.seat.id
             TLM_CONFIG_GENERAL_PAM_SERVICE) := ⟨_, rfl⟩
    obtain ⟨svc, hsvc⟩ := hsvc
    simp only [seat_config_string] at hsvc
    obtain ⟨out2, rest, hfin, hev, _, _⟩ := create_session_finish_ok run2 hstay out.daemon []
      svc (some user2) password2 hnone
    refine ⟨out2, ?_, ⟨Event.session_new out.daemon.seat.id svc (some user2) password2,
      by rw [hev]; simp, rfl⟩⟩
    simp only [tlm_seat_create_session, hnone, ← hsvc]
    exact hfin
  have h_finish : ∀ (events : List Event) (svc name : Option String),
      (∀ e ∈ events, ∀ r, e ≠ Event.fork r) → events.filter Event.is_session_new = [] →
      ∃ out, create_session_finish run d events svc name password = .ok out ∧
        out.ret = (run.created && run.started) ∧
        out.daemon.notify_table = d.notify_table ∧
        (∀ e ∈ out.events, ∀ r, e ≠ Event.fork r) ∧
        ((out.events.filter Event.is_session_new).length = 1) ∧
        ((run.created && run.started) = false →
          out.daemon.seat.session = none ∧
          (∃ session, Event.session_unref session ∈ out.events)) ∧
        ((run.created && run.started) = true →
          ∃ session, out.daemon.seat.session = some session ∧ session.child_pid = 0) := by
    intro events svc name hev hfil
    obtain ⟨session, hpid, hnew⟩ := session_new_after_error run d.notify_table d.seat.config
      d.seat.id svc name password none d.seat.notify_fd.2 h_sig
    cases hb : (run.created && run.started) with
    | false =>
      simp only [hb, Bool.false_eq_true, if_false] at hnew
      refine ⟨⟨⟨{ d.seat with session := none }, d.notify_table⟩,
        events ++ [Event.session_new d.seat.id svc name password, Event.session_unref session],
        false⟩, ?_, rfl, rfl, ?_, ?_, ?_, ?_⟩
      · simp only [create_session_finish, h_slot, hnew]
        rfl
      · intro e he r
        rcases List.mem_append.mp he with he | he
        · exact hev e he r
        · simp only [List.mem_cons, List.mem_singleton, List.not_mem_nil, or_false] at he
          rcases he with he | he <;> subst he <;> simp
      · simp [List.filter_append, hfil, List.filter_cons, Event.is_session_new]
      · intro _
        exact ⟨rfl, session, by simp⟩
      · intro h
        cases h
    | true =>
      simp only [hb, if_true] at hnew
      refine ⟨⟨⟨{ d.seat with session := some session }, d.notify_table⟩,
        events ++ [Event.session_new d.seat.id svc name password], true⟩,
        ?_, rfl, rfl, ?_, ?_, ?_, ?_⟩
      · simp only [create_session_finish, h_slot, hnew]
        rfl
      · intro e he r
        rcases List.mem_append.mp he with he | he
        · exact hev e he r
        · simp only [List.mem_singleton] at he
          subst he
          simp
      · simp [List.filter_append, hfil, List.filter_cons, Event.is_session_new]
      · intro h
        cases h
      · intro _
        exact ⟨session, rfl, hpid⟩
  have h_occupied : ∀ out : Outcome,
      (∃ session, out.daemon.seat.session = some session ∧ session.child_pid = 0) →
      ∀ (run2 : AuthRun) (service2 username2 password2 : Option String),
        tlm_seat_create_session run2 out.daemon service2 username2 password2
          = .ok ⟨out.daemon, [], false⟩ := by
    intro out hs run2 service2 username2 password2
    obtain ⟨session, hsome, _⟩ := hs
    simp only [tlm_seat_create_session, hsome]
  have hsvc : ∃ svc : Option String, svc =
      (match service with
       | some s => some s
       | none =>
         seat_config_string d.seat.config d.seat.id TLM_CONFIG_GENERAL_PAM_SERVICE) :=
    ⟨_, rfl⟩
  obtain ⟨svc, hsvc⟩ := hsvc
  simp only [seat_config_string] at hsvc
  cases username with
  | some u =>
    obtain ⟨out, hfin, h1, h2, h3, h4, h5, h6⟩ := h_finish [] svc (some u) (by simp) rfl
    refine ⟨out, ?_, h1, h2, h3, h4,
      fun hb => ⟨(h5 hb).1, (h5 hb).2, h_again out (h5 hb).1⟩,
      fun hb => ⟨h6 hb, h_occupied out (h6 hb)⟩⟩
    simp only [tlm_seat_create_session, h_slot, ← hsvc]
    exact hfin
  | none =>
    obtain ⟨name, hbuild⟩ := h_name rfl
    obtain ⟨out, hfin, h1, h2, h3, h4, h5, h6⟩ := h_finish [Event.prepare_user name] svc
      (some name) (by simp) rfl
    refine ⟨out, ?_, h1, h2, h3, h4,
      fun hb => ⟨(h5 hb).1, (h5 hb).2, h_again out (h5 hb).1⟩,
      fun hb => ⟨h6 hb, h_occupied out (h6 hb)⟩⟩
    simp only [seat_config_string] at hbuild
    simp only [tlm_seat_create_session, h_slot, hbuild, ← hsvc]
    exact hfin

theorem create_session_auth_error_witness :
    (∃ out, tlm_seat_create_session auth_rejected scenario_idle (some "login") (some "nobody")
        (some "wrong") = .ok out ∧
      out.ret = false ∧ out.daemon.seat.session = none) ∧
    (∃ out, tlm_seat_create_session auth_error_after_start scenario_idle (some "login")
        (some "nobody") (some "wrong") = .ok out ∧
      out.ret = true ∧
      ∃ session, out.daemon.seat.session = some session ∧ session.child_pid = 0) := by
  obtain ⟨out, h, hret, _, _, _, hf, _⟩ := create_session_auth_error auth_rejected scenario_idle
    (some "login") (some "nobody") (some "wrong") rfl (Or.inl rfl) (fun h => by cases h)
  obtain ⟨out', h', hret', _, _, _, _, ht⟩ := create_session_auth_error auth_error_after_start
    scenario_idle (some "login") (some "nobody") (some "wrong") rfl (Or.inl rfl)
    (fun h => by cases h)
  exact ⟨⟨out, h, hret, (hf rfl).1⟩, ⟨out', h', hret', (ht rfl).1⟩⟩

/-- C14: when `fork` returns -1 in the session-created step, the call of
`tlm_seat_create_session` still returns TRUE with a session in the slot; that
session has `child_pid` -1 and keeps its authentication session, the reaper
table has got an entry under the key that -1 casts to, and terminating the
session calls `kill (-1, …)`. -/
theorem fork_failure_goes_unnoticed :
    ∃ out session, tlm_seat_create_session auth_fork_failure scenario_idle (some "login")
        (some "alice") (some "secret") = .ok out ∧
      out.ret = true ∧ out.daemon.seat.session = some session ∧
      session.child_pid = -1 ∧ session.auth_session = true ∧
      out.daemon.notify_table = [(18446744073709551615, 4)] ∧
      tlm_session_terminate session = [Event.kill (-1) SIGHUP, Event.kill (-1) SIGTERM] := by
  refine ⟨_, _, rfl, rfl, rfl, by decide, by decide, by decide, by decide⟩

/-! ### The watch on the notify channel -/

/-- C16: on the seat that waits for the switch to `bob`, a run of the
child-death handler whose observers answer false returns FALSE, the value
that makes the event loop remove the watch, where the run whose observers
answer continue returns TRUE. -/
theorem notify_handler_drops_watch :
    (∃ out, _notify_handler scenario_as_bool (auth_success 501) false 500 scenario_switching
        = .ok out ∧ out.ret = false) ∧
    (∃ out, _notify_handler scenario_as_bool (auth_success 501) true 500 scenario_switching
        = .ok out ∧ out.ret = true) :=
  ⟨⟨_, rfl, rfl⟩, ⟨_, rfl, rfl⟩⟩

/-- On every seat the handler returns FALSE when the observers answer false. -/
theorem notify_handler_veto_returns_false (as_bool : String → Bool) (run : AuthRun)
    (pid : Int) (d : Daemon) (out : Outcome)
    (h : _notify_handler as_bool run false pid d = .ok out) : out.ret = false := by
  simp only [_notify_handler, if_true] at h
  cases h
  rfl

/-! ### Keys that are read in `General` only -/

theorem get_string_congr (config config' : TlmConfig) (group key : Option String)
    (h : tlm_config_get_group config group = tlm_config_get_group config' group) :
    tlm_config_get_string config group key = tlm_config_get_string config' group key := by
  simp only [tlm_config_get_string, tlm_config_get_value, h]

theorem session_child_congr (as_bool : String → Bool) (config config' : TlmConfig)
    (h : tlm_config_get_group config (some TLM_CONFIG_GENERAL)
      = tlm_config_get_group config' (some TLM_CONFIG_GENERAL))
    (os : ChildOs) (priv : TlmSession) :
    session_child as_bool os { priv with config := config }
      = session_child as_bool os { priv with config := config' } := by
  have hs := fun key => get_string_congr config config' (some TLM_CONFIG_GENERAL) key h
  simp only [session_child, child_prologue, _set_environment, session_args,
    tlm_config_get_boolean, hs]

theorem setenv_scan_get (name value : String) :
    ∀ environ environ' : Environ, setenv_scan name value environ = .ok environ' →
      getenv name environ' = .ok (some value) ∧
      ∀ other, other ≠ name → getenv other environ' = getenv other environ
  | [], environ', h => by
    simp only [setenv_scan, Except.ok.injEq] at h
    subst h
    exact ⟨by simp [getenv], fun other ho => by simp [getenv, Ne.symm ho]⟩
  | .freed :: _, _, h => by simp [setenv_scan] at h
  | .var n v :: rest, environ', h => by
    rw [setenv_scan] at h
    by_cases hn : n = name
    · simp only [hn, if_true, Except.ok.injEq] at h
      subst h
      exact ⟨by simp [getenv], fun other ho => by simp [getenv, hn, Ne.symm ho]⟩
    · simp only [hn, if_false] at h
      cases hr : setenv_scan name value rest with
      | error e => simp [hr] at h
      | ok rest' =>
        simp only [hr, Except.ok.injEq] at h
        subst h
        obtain ⟨h1, h2⟩ := setenv_scan_get name value rest rest' hr
        refine ⟨by simp [getenv, hn, h1], ?_⟩
        intro other ho
        by_cases hno : n = other
        · simp [getenv, hno]
        · simp [getenv, hno, h2 other ho]

theorem setenv_get (name : String) (value : Option String) (environ environ' : Environ)
    (h_ok : env_name_ok name = true) (h : setenv name value environ = .ok environ') :
    (∃ v, value = some v ∧ getenv name environ' = .ok (some v)) ∧
    ∀ other, other ≠ name → getenv other environ' = getenv other environ := by
  simp only [setenv, h_ok, if_true] at h
  cases value with
  | none => simp at h
  | some v =>
    obtain ⟨h1, h2⟩ := setenv_scan_get name v environ environ' h
    exact ⟨⟨v, rfl, h1⟩, h2⟩

theorem setenv_get_other (name : String) (value : Option String) (environ environ' : Environ)
    (h : setenv name value environ = .ok environ') (other : String) (ho : other ≠ name) :
    getenv other environ' = getenv other environ := by
  unfold setenv at h
  split at h
  · cases value with
    | none => simp at h
    | some v => exact (setenv_scan_get name v environ environ' h).2 other ho
  · simp only [Except.ok.injEq] at h
    subst h
    rfl

theorem setenv_list_get_other (n : String) :
    ∀ (l : List (String × String)) (environ environ' : Environ),
      setenv_list l environ = .ok environ' → (∀ kv ∈ l, kv.1 ≠ n) →
      getenv n environ' = getenv n environ
  | [], environ, environ', h, _ => by
    simp only [setenv_list, Except.ok.injEq] at h
    subst h
    rfl
  | (k, v) :: rest, environ, environ', h, hk => by
    rw [setenv_list] at h
    cases h1 : setenv k (some v) environ with
    | error e => simp [h1] at h
    | ok e1 =>
      simp only [h1] at h
      rw [setenv_list_get_other n rest e1 environ' h
        (fun kv hkv => hk kv (List.mem_cons_of_mem _ hkv))]
      exact setenv_get_other k (some v) environ e1 h1 n
        (Ne.symm (hk (k, v) (List.mem_cons_self _ _)))

/-- In every environment that `_set_environment` returns, `PATH` and
`XDG_DATA_DIRS` have the strings of `SessionPath` and `DataDirs` in `General`,
or the built-in strings when `General` has none, unless the overrides of the
caller name the variable. -/
theorem set_environment_general_values (envlist : Option (List String))
    (home shell : Option String) (priv : TlmSession) (environ environ' : Environ)
    (h : _set_environment envlist home shell priv environ = .ok environ') :
    ((∀ overrides, priv.env_hash = some overrides → ∀ kv ∈ overrides, kv.1 ≠ "PATH") →
      getenv "PATH" environ' = .ok (some
        ((tlm_config_get_string priv.config (some TLM_CONFIG_GENERAL)
            (some TLM_CONFIG_GENERAL_SESSION_PATH)).getD "/usr/local/bin:/usr/bin:/bin"))) ∧
    ((∀ overrides, priv.env_hash = some overrides →
        ∀ kv ∈ overrides, kv.1 ≠ "XDG_DATA_DIRS") →
      getenv "XDG_DATA_DIRS" environ' = .ok (some
        ((tlm_config_get_string priv.config (some TLM_CONFIG_GENERAL)
            (some TLM_CONFIG_GENERAL_DATA_DIRS)).getD "/usr/share:/usr/local/share"))) := by
  have h_after : ∃ e0, setenv_list [] e0 = .ok e0 ∧
      _set_environment none home shell priv e0 = .ok environ' := by
    cases envlist with
    | none => exact ⟨environ, rfl, h⟩
    | some list =>
      simp only [_set_environment, bind, Except.bind, pure, Except.pure] at h ⊢
      cases h0 : putenv_list list environ with
      | error e => simp [h0] at h
      | ok e0 =>
        simp only [h0] at h
        exact ⟨e0, rfl, h⟩
  obtain ⟨e0, -, h⟩ := h_after
  have hp : (match tlm_config_get_string priv.config (some TLM_CONFIG_GENERAL)
        (some TLM_CONFIG_GENERAL_SESSION_PATH) with
      | some path => path
      | none => "/usr/local/bin:/usr/bin:/bin")
      = (tlm_config_get_string priv.config (some TLM_CONFIG_GENERAL)
          (some TLM_CONFIG_GENERAL_SESSION_PATH)).getD "/usr/local/bin:/usr/bin:/bin" := by
    cases tlm_config_get_string priv.config (some TLM_CONFIG_GENERAL)
      (some TLM_CONFIG_GENERAL_SESSION_PATH) <;> rfl
  have hx : (match tlm_config_get_string priv.config (some TLM_CONFIG_GENERAL)
        (some TLM_CONFIG_GENERAL_DATA_DIRS) with
      | some dirs => dirs
      | none => "/usr/share:/usr/local/share")
      = (tlm_config_get_string priv.config (some TLM_CONFIG_GENERAL)
          (some TLM_CONFIG_GENERAL_DATA_DIRS)).getD "/usr/share:/usr/local/share" := by
    cases tlm_config_get_string priv.config (some TLM_CONFIG_GENERAL)
      (some TLM_CONFIG_GENERAL_DATA_DIRS) <;> rfl
  simp only [_set_environment, bind, Except.bind, pure, Except.pure, hp, hx] at h
  cases h1 : setenv "PATH" (some ((tlm_config_get_string priv.config (some TLM_CONFIG_GENERAL)
      (some TLM_CONFIG_GENERAL_SESSION_PATH)).getD "/usr/local/bin:/usr/bin:/bin")) e0 with
  | error e => simp [h1] at h
  | ok e1 =>
    simp only [h1] at h
    cases h2 : setenv "USER" priv.username e1 with
    | error e => simp [h2] at h
    | ok e2 =>
      simp only [h2] at h
      cases h3 : setenv "LOGNAME" priv.username e2 with
      | error e => simp [h3] at h
      | ok e3 =>
        simp only [h3] at h
        cases h4 : setenv "HOME" home e3 with
        | error e => simp [h4] at h
        | ok e4 =>
          simp only [h4] at h
          cases h5 : setenv "SHELL" shell e4 with
          | error e => simp [h5] at h
          | ok e5 =>
            simp only [h5] at h
            cases h6 : setenv "XDG_SEAT" priv.seat_id e5 with
            | error e => simp [h6] at h
            | ok e6 =>
              simp only [h6] at h
              cases h7 : setenv "XDG_DATA_DIRS" (some ((tlm_config_get_string priv.config
                  (some TLM_CONFIG_GENERAL) (some TLM_CONFIG_GENERAL_DATA_DIRS)).getD
                  "/usr/share:/usr/local/share")) e6 with
              | error e => simp [h7] at h
              | ok e7 =>
                simp only [h7] at h
                obtain ⟨⟨v1, hv1, g1⟩, -⟩ := setenv_get "PATH" _ e0 e1 (by decide) h1
                obtain ⟨⟨v7, hv7, g7⟩, -⟩ := setenv_get "XDG_DATA_DIRS" _ e6 e7 (by decide) h7
                cases hv1
                cases hv7
                have p7 : getenv "PATH" e7 = .ok (some
                    ((tlm_config_get_string priv.config (some TLM_CONFIG_GENERAL)
                      (some TLM_CONFIG_GENERAL_SESSION_PATH)).getD
                      "/usr/local/bin:/usr/bin:/bin")) := by
                  rw [setenv_get_other _ _ e6 e7 h7 "PATH" (by decide),
                    setenv_get_other _ _ e5 e6 h6 "PATH" (by decide),
                    setenv_get_other _ _ e4 e5 h5 "PATH" (by decide),
                    setenv_get_other _ _ e3 e4 h4 "PATH" (by decide),
                    setenv_get_other _ _ e2 e3 h3 "PATH" (by decide),
                    setenv_get_other _ _ e1 e2 h2 "PATH" (by decide), g1]
                cases hh : priv.env_hash with
                | none =>
                  simp only [hh, Except.ok.injEq] at h
                  subst h
                  exact ⟨fun _ => p7, fun _ => g7⟩
                | some overrides =>
                  simp only [hh] at h
                  exact ⟨fun ho => by
                      rw [setenv_list_get_other "PATH" overrides e7 environ' h
                        (ho overrides rfl), p7],
                    fun ho => by
                      rw [setenv_list_get_other "XDG_DATA_DIRS" overrides e7 environ' h
                        (ho overrides rfl), g7]⟩

theorem set_terminal_in_calls (as_bool : String → Bool) (os : ChildOs) (priv : TlmSession)
    (home : Option String) (file : String) (args : List String) :
    Syscall.set_terminal ∈ child_prologue as_bool os priv ++ child_chdir os home
        ++ [Syscall.execvp file args]
      ↔ tlm_config_get_boolean as_bool priv.config (some TLM_CONFIG_GENERAL)
          (some TLM_CONFIG_GENERAL_SETUP_TERMINAL) false = true := by
  have h_warn : ∀ (b : Bool) (text : String), Syscall.set_terminal ∉ warn_if b text := by
    intro b text
    cases b <;> simp [warn_if]
  have h_chdir : Syscall.set_terminal ∉ child_chdir os home := by
    cases home with
    | none => simp [child_chdir]
    | some dir => simp [child_chdir, h_warn]
  simp only [child_prologue, List.mem_append, List.mem_singleton, h_warn, h_chdir, or_false,
    List.mem_cons, List.mem_nil_iff, reduceCtorEq]
  by_cases hb : tlm_config_get_boolean as_bool priv.config (some TLM_CONFIG_GENERAL)
      (some TLM_CONFIG_GENERAL_SETUP_TERMINAL) false = true
  · simp [hb]
  · by_cases hp : os.ppid = 1 <;> simp [hb, hp, h_warn]

/-- C17, as the claim states it, fails: the group `seat0` sets `AutoLogin` to
`false` and `SessionCmd` to `/bin/zsh`, `General` sets them to `true` and
`/bin/sh`; on `seat0` the child-death handler still constructs a new session,
and the child executes `/bin/sh`. -/
theorem seat_group_is_not_consulted :
    tlm_config_get_string config_seat_overrides (some "seat0") (some "AutoLogin")
      = some "false" ∧
    scenario_as_bool "false" = false ∧
    (∃ out, _notify_handler scenario_as_bool (auth_success 501) true 500 scenario_overrides
        = .ok out ∧
      Event.session_new (some "seat0") (some "tlm-login") (some "guest0") none ∈ out.events) ∧
    tlm_config_get_string config_seat_overrides (some "seat0") (some "SessionCmd")
      = some "/bin/zsh" ∧
    (∃ run, session_child scenario_as_bool alice_child_os
        { alice_session with config := config_seat_overrides } = .ok run ∧
      run.calls.getLast? = some (Syscall.execvp "/bin/sh" ["/bin/sh"])) := by
  refine ⟨by decide, by decide, ⟨_, rfl, by decide⟩, by decide, ⟨_, rfl, by decide⟩⟩

/-- C17, amended: for `AutoLogin`, `SetupTerminal`, `SessionCmd`, `SessionPath`
and `DataDirs` the value used for a seat is the one of `General`, whatever the
group named by the seat id contains. With two configurations that have the
same `General` group the child of a session makes the same run, and the
child-death handler of a seat built with the one relogs in exactly when
`AutoLogin` of the other reads true. In every run of the child with the one
configuration the terminal is set up exactly when `SetupTerminal` of `General`
in the other reads true (false when it is not there); the vector handed to
`execvp` is made of `SessionCmd` of `General` in the other, and of `SHELL` in
the environment of the child, else `systemd --user`, when it is not there;
`PATH` and `XDG_DATA_DIRS` are `SessionPath` and `DataDirs` of `General` in
the other, else the built-in strings, unless the overrides of the caller name
the variable. What is read of `General` for a key is the entry of the key in
the table stored under the name `General`. -/
theorem general_keys_ignore_seat_group (as_bool : String → Bool) (config config' : TlmConfig)
    (h : tlm_config_get_group config (some TLM_CONFIG_GENERAL)
      = tlm_config_get_group config' (some TLM_CONFIG_GENERAL)) :
    (∀ (os : ChildOs) (priv : TlmSession),
      session_child as_bool os { priv with config := config }
        = session_child as_bool os { priv with config := config' }) ∧
    (∀ (run : AuthRun) (pid : Int) (d : Daemon), d.seat.config = config →
      _notify_handler as_bool run true pid d =
        if tlm_config_get_boolean as_bool config' (some TLM_CONFIG_GENERAL)
              (some TLM_CONFIG_GENERAL_AUTO_LOGIN) true = true then
          (match tlm_seat_create_session run { d with seat := { d.seat with session := none } }
                   d.seat.next_service d.seat.next_user d.seat.next_password with
           | .error e => .error e
           | .ok out =>
             .ok ⟨{ out.daemon with seat := _reset_next out.daemon.seat },
                  ((match d.seat.session with
                    | none => []
                    | some session => [Event.session_unref session])
                   ++ [Event.session_terminated d.seat.id]) ++ out.events,
                  true⟩)
        else
          .ok ⟨{ d with seat := { d.seat with session := none } },
               (match d.seat.session with
                | none => []
                | some session => [Event.session_unref session])
               ++ [Event.session_terminated d.seat.id],
               true⟩) ∧
    (∀ (os : ChildOs) (priv : TlmSession) (run : ChildRun),
      session_child as_bool os { priv with config := config } = .ok run →
      (Syscall.set_terminal ∈ run.calls ↔
        tlm_config_get_boolean as_bool config' (some TLM_CONFIG_GENERAL)
          (some TLM_CONFIG_GENERAL_SETUP_TERMINAL) false = true) ∧
      (∀ shell, tlm_config_get_string config' (some TLM_CONFIG_GENERAL)
          (some TLM_CONFIG_GENERAL_SESSION_CMD) = some shell →
        ∃ args file rest, session_cmd_args shell.data = .ok args ∧
          args.map String.mk = file :: rest ∧
          run.calls.getLast? = some (Syscall.execvp file (file :: rest))) ∧
      (tlm_config_get_string config' (some TLM_CONFIG_GENERAL)
          (some TLM_CONFIG_GENERAL_SESSION_CMD) = none →
        (∀ s, getenv "SHELL" run.environ = .ok (some s) →
          run.calls.getLast? = some (Syscall.execvp s [s])) ∧
        (getenv "SHELL" run.environ = .ok none →
          run.calls.getLast? = some (Syscall.execvp "systemd" ["systemd", "--user"]))) ∧
      ((∀ overrides, priv.env_hash = some overrides → ∀ kv ∈ overrides, kv.1 ≠ "PATH") →
        getenv "PATH" run.environ = .ok (some
          ((tlm_config_get_string config' (some TLM_CONFIG_GENERAL)
              (some TLM_CONFIG_GENERAL_SESSION_PATH)).getD "/usr/local/bin:/usr/bin:/bin"))) ∧
      ((∀ overrides, priv.env_hash = some overrides →
          ∀ kv ∈ overrides, kv.1 ≠ "XDG_DATA_DIRS") →
        getenv "XDG_DATA_DIRS" run.environ = .ok (some
          ((tlm_config_get_string config' (some TLM_CONFIG_GENERAL)
              (some TLM_CONFIG_GENERAL_DATA_DIRS)).getD "/usr/share:/usr/local/share")))) ∧
    (∀ key : String, key ≠ "" →
      tlm_config_get_string config' (some TLM_CONFIG_GENERAL) (some key) =
        (match g_hash_table_lookup config'.config_table "General" with
         | none => none
         | some group_table => g_hash_table_lookup group_table key)) := by
  have hs := fun key => get_string_congr config config' (some TLM_CONFIG_GENERAL) key h
  refine ⟨session_child_congr as_bool config config' h, ?_, ?_, ?_⟩
  · intro run pid d hd
    have hb : tlm_config_get_boolean as_bool d.seat.config (some TLM_CONFIG_GENERAL)
          (some TLM_CONFIG_GENERAL_AUTO_LOGIN) true
        = tlm_config_get_boolean as_bool config' (some TLM_CONFIG_GENERAL)
          (some TLM_CONFIG_GENERAL_AUTO_LOGIN) true := by
      simp only [tlm_config_get_boolean, hd, hs]
    simp only [_notify_handler, hb]
    rfl
  · intro os priv run h_run
    obtain ⟨environ, home, file, rest, h_env, h_home, h_args, hrun⟩ :=
      session_child_shape as_bool os { priv with config := config } run h_run
    have h_last : run.calls.getLast? = some (Syscall.execvp file (file :: rest)) := by
      rw [hrun]
      simp
    have h_environ : run.environ = environ := by rw [hrun]
    obtain ⟨h_path, h_dirs⟩ := set_environment_general_values os.pam_envlist os.home_dir
      os.shell { priv with config := config } os.environ environ h_env
    simp only [hs] at h_path h_dirs h_args
    refine ⟨?_, ?_, ?_, ?_, ?_⟩
    · have ht := set_terminal_in_calls as_bool os { priv with config := config } home file
        (file :: rest)
      have hb : tlm_config_get_boolean as_bool config (some TLM_CONFIG_GENERAL)
            (some TLM_CONFIG_GENERAL_SETUP_TERMINAL) false
          = tlm_config_get_boolean as_bool config' (some TLM_CONFIG_GENERAL)
            (some TLM_CONFIG_GENERAL_SETUP_TERMINAL) false := by
        simp only [tlm_config_get_boolean, hs]
      rw [hrun, ← hb]
      exact ht
    · intro shell h_cmd
      simp only [session_args, hs, h_cmd] at h_args
      cases h_split : session_cmd_args shell.data with
      | error e => simp [h_split] at h_args
      | ok args =>
        simp only [h_split, Except.ok.injEq] at h_args
        exact ⟨args, file, rest, rfl, h_args, h_last⟩
    · intro h_cmd
      simp only [session_args, hs, h_cmd] at h_args
      rw [h_environ]
      constructor
      · intro s h_shell
        simp only [h_shell, Except.ok.injEq, List.cons.injEq] at h_args
        rw [h_last, ← h_args.1, ← h_args.2]
      · intro h_shell
        simp only [h_shell, Except.ok.injEq, List.cons.injEq] at h_args
        rw [h_last, ← h_args.1, ← h_args.2]
    · intro ho
      rw [h_environ]
      exact h_path ho
    · intro ho
      rw [h_environ]
      exact h_dirs ho
  · intro key hk
    have hg : ¬ TLM_CONFIG_GENERAL = "" := by decide
    simp only [tlm_config_get_string, tlm_config_get_value, tlm_config_get_group, hg, hk,
      if_false]
    have hname : TLM_CONFIG_GENERAL = "General" := rfl
    rw [hname]
    cases g_hash_table_lookup config'.config_table "General" with
    | none => rfl
    | some group_table =>
      simp only []
      cases g_hash_table_lookup group_table key <;> rfl

theorem general_keys_ignore_seat_group_witness :
    session_child scenario_as_bool alice_child_os
        { alice_session with config := scenario_config }
      = session_child scenario_as_bool alice_child_os
        { alice_session with config :=
            ⟨scenario_config.config_table ++ [("seat0", [("SessionCmd", "/bin/zsh")])]⟩ } ∧
    (∃ run, session_child scenario_as_bool alice_child_os
        { alice_session with config := config_seat_overrides } = .ok run ∧
      (∃ args file rest, session_cmd_args "/bin/sh".data = .ok args ∧
        args.map String.mk = file :: rest ∧
        run.calls.getLast? = some (Syscall.execvp file (file :: rest))) ∧
      getenv "PATH" run.environ = .ok (some "/usr/local/bin:/usr/bin:/bin")) :=
  ⟨(general_keys_ignore_seat_group scenario_as_bool scenario_config
      ⟨scenario_config.config_table ++ [("seat0", [("SessionCmd", "/bin/zsh")])]⟩
      (by decide)).1 alice_child_os alice_session,
   ⟨_, rfl,
    ((general_keys_ignore_seat_group scenario_as_bool config_seat_overrides
        config_seat_overrides rfl).2.2.1 alice_child_os alice_session _ rfl).2.1 "/bin/sh"
      (by decide),
    ((general_keys_ignore_seat_group scenario_as_bool config_seat_overrides
        config_seat_overrides rfl).2.2.1 alice_child_os alice_session _ rfl).2.2.2.1
      (fun overrides ho => by cases ho)⟩⟩

/-- An empty `SessionCmd` leaves `args` `NULL`, and a `SessionCmd` of white
space leaves it without a command. -/
theorem session_cmd_without_tokens :
    session_cmd_args [] = .error .null_pointer ∧ session_cmd_args [' ', ' '] = .ok [] := by
  decide

/-! ### The pid read by the child-death handler -/

/-- C23: for every seat state, every outcome of the session construction and
every answer of the observers, the child-death handler gives the same result
(the same state, the same events, the same returned flag, or the same abort)
for any two pids read from the notify pipe, the value 0 and a pid that is not
the `child_pid` of the current session included; and in every result the
events start with the release of the session that was in the slot, if there
was one, followed by `session-terminated` with the seat id. -/
theorem notify_handler_ignores_pid (as_bool : String → Bool) (run : AuthRun) (cont : Bool)
    (pid pid' : Int) (d : Daemon) :
    _notify_handler as_bool run cont pid d = _notify_handler as_bool run cont pid' d ∧
    _notify_handler as_bool run cont 0 d = _notify_handler as_bool run cont pid d ∧
    ∀ out, _notify_handler as_bool run cont pid d = .ok out →
      ∃ rest, out.events
        = (d.seat.session.toList.map Event.session_unref)
            ++ Event.session_terminated d.seat.id :: rest := by
  refine ⟨rfl, rfl, ?_⟩
  intro out h
  have hd : (match d.seat.session with
      | none => ([] : List Event)
      | some session => [Event.session_unref session])
      = d.seat.session.toList.map Event.session_unref := by
    cases d.seat.session <;> rfl
  unfold _notify_handler at h
  simp only [hd] at h
  split at h
  · injection h with h
    subst h
    exact ⟨[], by simp⟩
  · split at h
    · split at h
      · exact absurd h (by simp)
      · rename_i o _
        injection h with h
        subst h
        exact ⟨o.events, by simp⟩
    · injection h with h
      subst h
      exact ⟨[], by simp⟩

theorem notify_handler_ignores_pid_witness :
    _notify_handler scenario_as_bool (auth_success 501) true 0 scenario_switching
      = _notify_handler scenario_as_bool (auth_success 501) true 4711 scenario_switching ∧
    _notify_handler scenario_as_bool (auth_success 501) true 0 scenario_switching
      = _notify_handler scenario_as_bool (auth_success 501) true 500 scenario_switching :=
  ⟨(notify_handler_ignores_pid scenario_as_bool (auth_success 501) true 0 4711
      scenario_switching).1,
   (notify_handler_ignores_pid scenario_as_bool (auth_success 501) true 500 0
      scenario_switching).2.1⟩

/-! ### The reads of the template scan -/

theorem loop_ok_of_complete (seat_num : Int) (seat_id : List Char) :
    ∀ (t str : List Char), escapes_complete t = true →
      ∃ out, build_user_name_loop seat_num seat_id str t = .ok out
  | [], str, _ => ⟨str, by simp [build_user_name_loop]⟩
  | [c], str, h => by
    have hc : c ≠ '%' := by simpa [escapes_complete] using h
    exact ⟨str ++ [c], by simp [build_user_name_loop, hc]⟩
  | c :: x :: rest, str, h => by
    by_cases hc : c = '%'
    · have hr : escapes_complete rest = true := by simpa [escapes_complete, hc] using h
      rw [build_user_name_loop.eq_def]
      simp only [hc, if_true]
      split_ifs
      · exact loop_ok_of_complete seat_num seat_id rest _ hr
      · exact loop_ok_of_complete seat_num seat_id rest _ hr
      · exact loop_ok_of_complete seat_num seat_id rest _ hr
    · have hr : escapes_complete (x :: rest) = true := by simpa [escapes_complete, hc] using h
      rw [build_user_name_loop.eq_def]
      simp only [hc, if_false]
      exact loop_ok_of_complete seat_num seat_id (x :: rest) _ hr

theorem loop_past_of_incomplete (seat_num : Int) (seat_id : List Char) :
    ∀ (t str : List Char), escapes_complete t = false →
      build_user_name_loop seat_num seat_id str t = .error .past_terminator
  | [], str, h => by simp [escapes_complete] at h
  | [c], str, h => by
    have hc : c = '%' := by simpa [escapes_complete] using h
    simp [build_user_name_loop, hc]
  | c :: x :: rest, str, h => by
    by_cases hc : c = '%'
    · have hr : escapes_complete rest = false := by simpa [escapes_complete, hc] using h
      rw [build_user_name_loop.eq_def]
      simp only [hc, if_true]
      split_ifs
      · exact loop_past_of_incomplete seat_num seat_id rest _ hr
      · exact loop_past_of_incomplete seat_num seat_id rest _ hr
      · exact loop_past_of_incomplete seat_num seat_id rest _ hr
    · have hr : escapes_complete (x :: rest) = false := by simpa [escapes_complete, hc] using h
      rw [build_user_name_loop.eq_def]
      simp only [hc, if_false]
      exact loop_past_of_incomplete seat_num seat_id (x :: rest) _ hr

theorem reads_in_bounds_of_complete :
    ∀ (t : List Char) (i : Nat), escapes_complete t = true →
      ∀ j ∈ build_user_name_reads i t, j ≤ i + t.length
  | [], i, _ => by simp [build_user_name_reads]
  | [c], i, h => by
    have hc : c ≠ '%' := by simpa [escapes_complete] using h
    simp [build_user_name_reads, hc]
  | c :: x :: rest, i, h => by
    by_cases hc : c = '%'
    · have hr : escapes_complete rest = true := by simpa [escapes_complete, hc] using h
      have ih := reads_in_bounds_of_complete rest (i + 2) hr
      intro j hj
      simp only [build_user_name_reads, hc, if_true, List.mem_cons] at hj
      simp only [List.length_cons]
      rcases hj with hj | hj | hj
      · omega
      · omega
      · have := ih j hj
        omega
    · have hr : escapes_complete (x :: rest) = true := by simpa [escapes_complete, hc] using h
      have ih := reads_in_bounds_of_complete (x :: rest) (i + 1) hr
      intro j hj
      rw [build_user_name_reads] at hj
      simp only [hc, if_false, List.mem_cons] at hj
      simp only [List.length_cons] at ih ⊢
      rcases hj with hj | hj
      · omega
      · have := ih j hj
        omega

theorem reads_past_of_incomplete :
    ∀ (t : List Char) (i : Nat), escapes_complete t = false →
      i + t.length + 1 ∈ build_user_name_reads i t
  | [], i, h => by simp [escapes_complete] at h
  | [c], i, h => by
    have hc : c = '%' := by simpa [escapes_complete] using h
    simp [build_user_name_reads, hc]
  | c :: x :: rest, i, h => by
    by_cases hc : c = '%'
    · have hr : escapes_complete rest = false := by simpa [escapes_complete, hc] using h
      have ih := reads_past_of_incomplete rest (i + 2) hr
      simp only [build_user_name_reads, hc, if_true, List.mem_cons, List.length_cons]
      right; right
      have e : i + (rest.length + 1 + 1) + 1 = i + 2 + rest.length + 1 := by omega
      rw [e]
      exact ih
    · have hr : escapes_complete (x :: rest) = false := by simpa [escapes_complete, hc] using h
      have ih := reads_past_of_incomplete (x :: rest) (i + 1) hr
      rw [build_user_name_reads]
      simp only [hc, if_false, List.mem_cons, List.length_cons] at ih ⊢
      right
      have e : i + (rest.length + 1 + 1) + 1 = i + 1 + (rest.length + 1) + 1 := by omega
      rw [e]
      exact ih

theorem escapes_complete_append (s : List Char) :
    ∀ (p : List Char), p.getLast? ≠ some '%' →
      escapes_complete (p ++ s) = escapes_complete s
  | [], _ => rfl
  | [c], h => by
    have hc : c ≠ '%' := by simpa using h
    cases s with
    | nil => simp [escapes_complete, hc]
    | cons x r => simp [escapes_complete, hc]
  | c :: x :: rest, h => by
    by_cases hc : c = '%'
    · have hr : rest.getLast? ≠ some '%' := by
        cases rest with
        | nil => simp
        | cons y r => simpa [List.getLast?_cons_cons] using h
      simp only [List.cons_append, escapes_complete, hc, if_true]
      exact escapes_complete_append s rest hr
    · have hr : (x :: rest).getLast? ≠ some '%' := by
        simpa [List.getLast?_cons_cons] using h
      have ih := escapes_complete_append s (x :: rest) hr
      simp only [List.cons_append] at ih
      simp only [List.cons_append, escapes_complete, hc, if_false]
      exact ih

theorem escapes_complete_replicate :
    ∀ (k : Nat), escapes_complete (List.replicate k '%') = decide (k % 2 = 0)
  | 0 => rfl
  | 1 => rfl
  | k + 2 => by
    have ih := escapes_complete_replicate k
    simp only [List.replicate_succ, escapes_complete, if_true, ih]
    have e : (k + 2) % 2 = k % 2 := by omega
    rw [e]

theorem split_trailing_percents (t : List Char) :
    t = (t.reverse.dropWhile (fun c => c == '%')).reverse
          ++ List.replicate (trailing_percents t) '%' ∧
    ((t.reverse.dropWhile (fun c => c == '%')).reverse).getLast? ≠ some '%' := by
  constructor
  · have h1 : t.reverse.takeWhile (fun c => c == '%')
        = List.replicate (trailing_percents t) '%' := by
      rw [List.eq_replicate_iff]
      refine ⟨rfl, ?_⟩
      intro b hb
      have := List.mem_takeWhile_imp hb
      simpa using this
    have h2 := List.takeWhile_append_dropWhile (fun c => c == '%') t.reverse
    have h3 : t = (t.reverse.takeWhile (fun c => c == '%')
        ++ t.reverse.dropWhile (fun c => c == '%')).reverse := by
      rw [h2, List.reverse_reverse]
    rw [List.reverse_append, h1, List.reverse_replicate] at h3
    exact h3
  · rw [List.getLast?_reverse]
    intro h
    have := List.head?_dropWhile_not (fun c => c == '%') t.reverse
    rw [h] at this
    simp at this

theorem escapes_complete_iff_even (t : List Char) :
    escapes_complete t = decide (trailing_percents t % 2 = 0) := by
  obtain ⟨h1, h2⟩ := split_trailing_percents t
  conv_lhs => rw [h1]
  rw [escapes_complete_append _ _ h2, escapes_complete_replicate]

theorem trailing_percents_of_last (t : List Char) (h : t.getLast? ≠ some '%') :
    trailing_percents t = 0 := by
  unfold trailing_percents
  rw [← List.head?_reverse] at h
  cases hl : t.reverse with
  | nil => rfl
  | cons a l =>
    rw [hl] at h
    have ha : a ≠ '%' := by simpa using h
    simp [List.takeWhile_cons, ha]

/-- C25, as the claim states it, fails in its second half: the template `%%`
ends in `%`, yet the scan reads the indices 0, 1 and 2 only, index 2 being the
terminator: the second `%` is read by the `switch` as the character after the
first, and the name is built (it is empty). -/
theorem build_user_name_double_percent :
    "%%".data.getLast? = some '%' ∧
    "%%".data.length = 2 ∧
    build_user_name_reads 0 "%%".data = [0, 1, 2] ∧
    _build_user_name (some "%%") (some "seat0") = .ok "" := by
  decide

/-- C25, amended: `_build_user_name` is a total function of the template and
the seat id. A template in which each `%` is followed by one more character,
which is one whose last character is not `%`, ends in no `%`. For a template
that ends in an even number of `%` (none included) every read of the scan is
at an index up to that of the terminator and a name is returned. For a
template that ends in an odd number of `%` the scan reads the index behind the
terminator: from the last `%` the pointer moves to the terminator and from
there one further. -/
theorem build_user_name_in_bounds (template seat_id : String) :
    (template.data.getLast? ≠ some '%' → trailing_percents template.data = 0) ∧
    (trailing_percents template.data % 2 = 0 →
      (∀ i ∈ build_user_name_reads 0 template.data, i ≤ template.data.length) ∧
      ∃ name, _build_user_name (some template) (some seat_id) = .ok name) ∧
    (trailing_percents template.data % 2 = 1 →
      template.data.length + 1 ∈ build_user_name_reads 0 template.data ∧
      _build_user_name (some template) (some seat_id) = .error .past_terminator) := by
  refine ⟨trailing_percents_of_last _, ?_, ?_⟩
  · intro h
    have hc : escapes_complete template.data = true := by
      rw [escapes_complete_iff_even]
      simpa using h
    refine ⟨?_, ?_⟩
    · intro i hi
      have := reads_in_bounds_of_complete template.data 0 hc i hi
      omega
    · obtain ⟨out, hout⟩ := loop_ok_of_complete
        (if starts_with_seat seat_id.data then atoi (seat_id.data.drop 4) else 0)
        seat_id.data template.data [] hc
      exact ⟨String.mk out, by simp only [_build_user_name, hout]⟩
  · intro h
    have hc : escapes_complete template.data = false := by
      rw [escapes_complete_iff_even]
      simp only [decide_eq_false_iff_not]
      omega
    refine ⟨?_, ?_⟩
    · have := reads_past_of_incomplete template.data 0 hc
      simpa using this
    · simp only [_build_user_name, loop_past_of_incomplete _ _ template.data [] hc]

theorem build_user_name_in_bounds_witness :
    ((∀ i ∈ build_user_name_reads 0 "guest%S".data, i ≤ "guest%S".data.length) ∧
      ∃ name, _build_user_name (some "guest%S") (some "seat0") = .ok name) ∧
    ("guest%".data.length + 1 ∈ build_user_name_reads 0 "guest%".data ∧
      _build_user_name (some "guest%") (some "seat0") = .error .past_terminator) :=
  ⟨(build_user_name_in_bounds "guest%S" "seat0").2.1 (by decide),
   (build_user_name_in_bounds "guest%" "seat0").2.2 (by decide)⟩

/-! ### The template of the default user -/

/-- C24: on a seat with an empty slot, a call of `tlm_seat_create_session`
with a `NULL` username hands `_build_user_name` a template that is not `NULL`
when `DefaultUser` is in the group of the seat or in `General`; when it is in
neither, the template handed over is `NULL` and the call has no result: the
scan starts at a `NULL` pointer, nothing is emitted and no session is
constructed. The group of the seat is the one `tlm_config_get_group` finds for
the seat id. -/
theorem create_session_template (run : AuthRun) (d : Daemon) (service password : Option String)
    (h_slot : d.seat.session = none) :
    ((group_has_key d.seat.config d.seat.id TLM_CONFIG_GENERAL_DEFAULT_USER = true ∨
      group_has_key d.seat.config (some TLM_CONFIG_GENERAL) TLM_CONFIG_GENERAL_DEFAULT_USER
        = true) →
      ∃ t svc,
        seat_config_string d.seat.config d.seat.id TLM_CONFIG_GENERAL_DEFAULT_USER = some t ∧
        tlm_seat_create_session run d service none password =
          (match _build_user_name (some t) d.seat.id with
           | .error e => .error e
           | .ok name =>
             create_session_finish run d [Event.prepare_user name] svc (some name) password)) ∧
    ((group_has_key d.seat.config d.seat.id TLM_CONFIG_GENERAL_DEFAULT_USER = false ∧
      group_has_key d.seat.config (some TLM_CONFIG_GENERAL) TLM_CONFIG_GENERAL_DEFAULT_USER
        = false) →
      seat_config_string d.seat.config d.seat.id TLM_CONFIG_GENERAL_DEFAULT_USER = none ∧
      tlm_seat_create_session run d service none password = .error .null_pointer) := by
  have h_key : ∀ group : Option String,
      tlm_config_get_string d.seat.config group (some TLM_CONFIG_GENERAL_DEFAULT_USER)
        = (match tlm_config_get_group d.seat.config group with
           | none => none
           | some group_table =>
             g_hash_table_lookup group_table TLM_CONFIG_GENERAL_DEFAULT_USER) := by
    intro group
    have hk : ¬ TLM_CONFIG_GENERAL_DEFAULT_USER = "" := by decide
    simp only [tlm_config_get_string, tlm_config_get_value, hk, if_false]
    cases tlm_config_get_group d.seat.config group with
    | none => rfl
    | some group_table =>
      simp only []
      cases g_hash_table_lookup group_table TLM_CONFIG_GENERAL_DEFAULT_USER <;> rfl
  have h_has : ∀ group : Option String,
      group_has_key d.seat.config group TLM_CONFIG_GENERAL_DEFAULT_USER
        = (tlm_config_get_string d.seat.config group
            (some TLM_CONFIG_GENERAL_DEFAULT_USER)).isSome := by
    intro group
    rw [h_key group]
    unfold group_has_key
    cases tlm_config_get_group d.seat.config group <;> rfl
  have h_call : ∀ tmpl : Option String,
      seat_config_string d.seat.config d.seat.id TLM_CONFIG_GENERAL_DEFAULT_USER = tmpl →
      tlm_seat_create_session run d service none password =
        (match _build_user_name tmpl d.seat.id with
         | .error e => .error e
         | .ok name =>
           create_session_finish run d [Event.prepare_user name]
             (match service with
              | some s => some s
              | none =>
                seat_config_string d.seat.config d.seat.id TLM_CONFIG_GENERAL_PAM_SERVICE)
             (some name) password) := by
    intro tmpl ht
    simp only [seat_config_string] at ht
    simp only [tlm_seat_create_session, h_slot, ht, seat_config_string]
  constructor
  · intro h
    rw [h_has, h_has] at h
    have ht : ∃ t, seat_config_string d.seat.config d.seat.id TLM_CONFIG_GENERAL_DEFAULT_USER
        = some t := by
      unfold seat_config_string
      cases hs : tlm_config_get_string d.seat.config d.seat.id
          (some TLM_CONFIG_GENERAL_DEFAULT_USER) with
      | some v => exact ⟨v, rfl⟩
      | none =>
        rw [hs] at h
        cases hg : tlm_config_get_string d.seat.config (some TLM_CONFIG_GENERAL)
            (some TLM_CONFIG_GENERAL_DEFAULT_USER) with
        | some v => exact ⟨v, rfl⟩
        | none =>
          rw [hg] at h
          simp at h
    obtain ⟨t, ht⟩ := ht
    exact ⟨t, _, ht, h_call (some t) ht⟩
  · intro h
    rw [h_has, h_has] at h
    have ht : seat_config_string d.seat.config d.seat.id TLM_CONFIG_GENERAL_DEFAULT_USER
        = none := by
      unfold seat_config_string
      cases hs : tlm_config_get_string d.seat.config d.seat.id
          (some TLM_CONFIG_GENERAL_DEFAULT_USER) with
      | some v => rw [hs] at h; simp at h
      | none =>
        cases hg : tlm_config_get_string d.seat.config (some TLM_CONFIG_GENERAL)
            (some TLM_CONFIG_GENERAL_DEFAULT_USER) with
        | some v => rw [hg] at h; simp at h
        | none => rfl
    refine ⟨ht, ?_⟩
    rw [h_call none ht]
    cases d.seat.id <;> rfl

theorem create_session_template_witness :
    (∃ t svc,
      seat_config_string scenario_idle.seat.config scenario_idle.seat.id
        TLM_CONFIG_GENERAL_DEFAULT_USER = some t ∧
      tlm_seat_create_session (auth_success 500) scenario_idle none none none =
        (match _build_user_name (some t) scenario_idle.seat.id with
         | .error e => .error e
         | .ok name =>
           create_session_finish (auth_success 500) scenario_idle [Event.prepare_user name]
             svc (some name) none)) ∧
    (seat_config_string config_without_default_user (some "seat0")
        TLM_CONFIG_GENERAL_DEFAULT_USER = none ∧
      tlm_seat_create_session (auth_success 500)
        ⟨tlm_seat_new config_without_default_user (some "seat0") none (3, 4), []⟩
        (some "login") none none = .error .null_pointer) :=
  ⟨(create_session_template (auth_success 500) scenario_idle none none rfl).1
      (Or.inr (by decide)),
   (create_session_template (auth_success 500)
      ⟨tlm_seat_new config_without_default_user (some "seat0") none (3, 4), []⟩
      (some "login") none rfl).2 ⟨by decide, by decide⟩⟩

/-! ### The pid handed to `kill` -/

/-- C22 fails: after a `fork` that failed the session in the slot has the
`child_pid` -1, and `tlm_seat_terminate_session` as well as
`tlm_seat_switch_user` hand -1 to `kill`, for `SIGHUP` and for `SIGTERM`; and
while the authentication has not emitted `session-created` the `child_pid` is
0, which is what `kill` then gets. -/
theorem terminate_kills_without_child :
    run_ops scenario_as_bool
        [.create_session auth_fork_failure (some "login") (some "alice") (some "secret"),
         .terminate_session] scenario_idle
      = .ok (⟨{ scenario_idle.seat with
                  session := some { alice_session with child_pid := -1 } },
              [(GUINT_TO_POINTER (-1), 4)]⟩,
             [Event.session_new (some "seat0") (some "login") (some "alice") (some "secret"),
              Event.fork (-1), Event.kill (-1) SIGHUP, Event.kill (-1) SIGTERM]) ∧
    run_ops scenario_as_bool
        [.create_session auth_fork_failure (some "login") (some "alice") (some "secret"),
         .switch_user (auth_success 501) (some "login") (some "bob") (some "pw")] scenario_idle
      = .ok (⟨{ scenario_idle.seat with
                  session := some { alice_session with child_pid := -1 },
                  next_service := some "login", next_user := some "bob" },
              [(GUINT_TO_POINTER (-1), 4)]⟩,
             [Event.session_new (some "seat0") (some "login") (some "alice") (some "secret"),
              Event.fork (-1), Event.kill (-1) SIGHUP, Event.kill (-1) SIGTERM]) ∧
    run_ops scenario_as_bool
        [.create_session auth_pending (some "login") (some "alice") (some "secret"),
         .terminate_session] scenario_idle
      = .ok (⟨{ scenario_idle.seat with
                  session := some { alice_session with child_pid := 0 } }, []⟩,
             [Event.session_new (some "seat0") (some "login") (some "alice") (some "secret"),
              Event.kill 0 SIGHUP, Event.kill 0 SIGTERM]) := by
  decide

/-! ### The environment that `_set_environment` builds -/

theorem lookup_append {κ ν : Type} [DecidableEq κ] (b : List (κ × ν)) (n : κ) :
    ∀ a : List (κ × ν), g_hash_table_lookup (a ++ b) n
      = (g_hash_table_lookup a n).orElse (fun _ => g_hash_table_lookup b n)
  | [] => rfl
  | (k, v) :: rest => by
    by_cases hk : k = n
    · simp [g_hash_table_lookup, hk]
    · simp [g_hash_table_lookup, hk, lookup_append b n rest]

theorem lookup_none_of_not_mem {κ ν : Type} [DecidableEq κ] (n : κ) :
    ∀ l : List (κ × ν), n ∉ l.map Prod.fst → g_hash_table_lookup l n = none
  | [], _ => rfl
  | (k, v) :: rest, h => by
    have hk : ¬ k = n := fun hk => h (by simp [hk])
    have hr : n ∉ rest.map Prod.fst := fun hr => h (by simp at hr ⊢; exact Or.inr hr)
    simp [g_hash_table_lookup, hk, lookup_none_of_not_mem n rest hr]

theorem lookup_reverse_of_nodup {κ ν : Type} [DecidableEq κ] (n : κ) :
    ∀ l : List (κ × ν), (l.map Prod.fst).Nodup →
      g_hash_table_lookup l.reverse n = g_hash_table_lookup l n
  | [], _ => rfl
  | (k, v) :: rest, h => by
    have hn : k ∉ rest.map Prod.fst ∧ (rest.map Prod.fst).Nodup := by
      simpa [List.nodup_cons] using h
    rw [List.reverse_cons, lookup_append, lookup_reverse_of_nodup n rest hn.2]
    by_cases hk : k = n
    · subst hk
      simp [g_hash_table_lookup, lookup_none_of_not_mem k rest hn.1]
    · cases hl : g_hash_table_lookup rest n <;> simp [g_hash_table_lookup, hk, hl]

theorem setenv_list_ok :
    ∀ (l : List (String × String)) (environ : Environ), environ_live environ = true →
      (∀ kv ∈ l, env_name_ok kv.1 = true) →
      ∃ environ', setenv_list l environ = .ok environ' ∧
        environ_live environ' = true ∧
        ∀ n, getenv n environ'
          = ((g_hash_table_lookup l.reverse n).map (fun v => Except.ok (some v))).getD
              (getenv n environ)
  | [], environ, h, _ => ⟨environ, rfl, h, fun n => rfl⟩
  | (k, v) :: rest, environ, h, h_ok => by
    have hk : env_name_ok k = true := h_ok (k, v) (by simp)
    obtain ⟨e1, h1, l1, g1, k1⟩ := setenv_scan_ok k v environ h
    obtain ⟨e2, h2, l2, g2⟩ := setenv_list_ok rest e1 l1
      (fun kv hkv => h_ok kv (List.mem_cons_of_mem _ hkv))
    refine ⟨e2, by simp [setenv_list, setenv, hk, h1, h2], l2, ?_⟩
    intro n
    rw [g2 n, List.reverse_cons, lookup_append]
    cases hl : g_hash_table_lookup rest.reverse n with
    | some w => simp
    | none =>
      by_cases hn : k = n
      · subst hn
        simp [g_hash_table_lookup, g1]
      · simp [g_hash_table_lookup, hn, k1 n (Ne.symm hn)]

theorem setenv_list_cons (k v : String) (rest : List (String × String)) (environ : Environ) :
    setenv_list ((k, v) :: rest) environ
      = (setenv k (some v) environ >>= fun e => setenv_list rest e) := by
  rw [setenv_list]
  cases setenv k (some v) environ <;> rfl

theorem set_environment_as_list (envlist : Option (List String)) (priv : TlmSession)
    (environ : Environ) (user seat home shell : String) (overrides : List (String × String))
    (h_pam : envlist = none ∨ envlist = some [])
    (h_hash : priv.env_hash = some overrides ∨ (priv.env_hash = none ∧ overrides = []))
    (h_user : priv.username = some user) (h_seat : priv.seat_id = some seat) :
    _set_environment envlist (some home) (some shell) priv environ
      = setenv_list (fixed_environment priv.config user home shell seat ++ overrides)
          environ := by
  have h_end : ∀ e : Environ, (match priv.env_hash with
      | none => (pure e : Except ChildFault Environ)
      | some env_hash => setenv_list env_hash e) = setenv_list overrides e := by
    intro e
    rcases h_hash with h | ⟨h, h'⟩
    · rw [h]
    · rw [h, h']
      rfl
  have h_ok : ∀ (f : Environ → Except ChildFault Environ) (e : Environ),
      ((Except.ok e : Except ChildFault Environ) >>= f) = f e := fun _ _ => rfl
  have h_pure : ∀ (f : Environ → Except ChildFault Environ) (e : Environ),
      ((pure e : Except ChildFault Environ) >>= f) = f e := fun _ _ => rfl
  rcases h_pam with h | h <;> subst h <;>
    simp only [_set_environment, h_end, h_user, h_seat, putenv_list, h_ok, h_pure,
      fixed_environment, List.cons_append, List.nil_append, setenv_list_cons]

/-- What `_set_environment` does when PAM supplies no variable: it returns,
and in the environment it leaves every variable has the value of the
overrides when they have its name, else the fixed value when it is one of the
seven, else the value inherited from the daemon. -/
theorem set_environment_precedence (envlist : Option (List String)) (priv : TlmSession)
    (environ : Environ) (user seat home shell : String) (overrides : List (String × String))
    (h_pam : envlist = none ∨ envlist = some [])
    (h_hash : priv.env_hash = some overrides ∨ (priv.env_hash = none ∧ overrides = []))
    (h_keys : (overrides.map Prod.fst).Nodup)
    (h_names : ∀ kv ∈ overrides, env_name_ok kv.1 = true)
    (h_user : priv.username = some user) (h_seat : priv.seat_id = some seat)
    (h_live : environ_live environ = true) :
    ∃ environ', _set_environment envlist (some home) (some shell) priv environ = .ok environ' ∧
      environ_live environ' = true ∧
      ∀ n inherited, getenv n environ = .ok inherited →
        getenv n environ' = .ok (environment_ref overrides
          (fixed_environment priv.config user home shell seat) [] inherited n) := by
  have h_all : ∀ kv ∈ fixed_environment priv.config user home shell seat ++ overrides,
      env_name_ok kv.1 = true := by
    intro kv hkv
    rcases List.mem_append.1 hkv with h | h
    · simp only [fixed_environment, List.mem_cons, List.mem_singleton, List.mem_nil_iff,
        or_false] at h
      rcases h with h | h | h | h | h | h | h <;> subst h
      · exact (by decide : env_name_ok "PATH" = true)
      · exact (by decide : env_name_ok "USER" = true)
      · exact (by decide : env_name_ok "LOGNAME" = true)
      · exact (by decide : env_name_ok "HOME" = true)
      · exact (by decide : env_name_ok "SHELL" = true)
      · exact (by decide : env_name_ok "XDG_SEAT" = true)
      · exact (by decide : env_name_ok "XDG_DATA_DIRS" = true)
    · exact h_names kv h
  obtain ⟨e, he, hl, hg⟩ := setenv_list_ok _ environ h_live h_all
  refine ⟨e, ?_, hl, ?_⟩
  · rw [set_environment_as_list envlist priv environ user seat home shell overrides h_pam h_hash
      h_user h_seat]
    exact he
  · intro n inherited h_inh
    have h_fixed : ((fixed_environment priv.config user home shell seat).map Prod.fst).Nodup := by
      simp only [fixed_environment, List.map_cons, List.map_nil]
      decide
    rw [hg n, List.reverse_append, lookup_append, lookup_reverse_of_nodup n _ h_keys,
      lookup_reverse_of_nodup n _ h_fixed, h_inh]
    unfold environment_ref
    cases g_hash_table_lookup overrides n with
    | some v => simp
    | none =>
      cases g_hash_table_lookup (fixed_environment priv.config user home shell seat) n with
      | some v => simp
      | none => simp [g_hash_table_lookup]

theorem putenv_scan_dangling (name : String) :
    ∀ environ environ' : Environ, putenv_scan name environ = .ok environ' →
      environ_live environ' = false
  | [], environ', h => by
    simp only [putenv_scan, Except.ok.injEq] at h
    subst h
    rfl
  | .freed :: _, _, h => by simp [putenv_scan] at h
  | .var n v :: rest, environ', h => by
    rw [putenv_scan] at h
    by_cases hn : n = name
    · simp only [hn, if_true, Except.ok.injEq] at h
      subst h
      rfl
    · simp only [hn, if_false] at h
      cases hr : putenv_scan name rest with
      | error e => simp [hr] at h
      | ok rest' =>
        simp only [hr, Except.ok.injEq] at h
        subst h
        simpa [environ_live] using putenv_scan_dangling name rest rest' hr

theorem setenv_scan_dangling (name value : String) :
    ∀ environ environ' : Environ, environ_live environ = false →
      setenv_scan name value environ = .ok environ' → environ_live environ' = false
  | [], _, hd, _ => by simp [environ_live] at hd
  | .freed :: _, _, _, h => by simp [setenv_scan] at h
  | .var n v :: rest, environ', hd, h => by
    have hrest : environ_live rest = false := by simpa [environ_live] using hd
    rw [setenv_scan] at h
    by_cases hn : n = name
    · simp only [hn, if_true, Except.ok.injEq] at h
      subst h
      simpa [environ_live] using hrest
    · simp only [hn, if_false] at h
      cases hr : setenv_scan name value rest with
      | error e => simp [hr] at h
      | ok rest' =>
        simp only [hr, Except.ok.injEq] at h
        subst h
        simpa [environ_live] using setenv_scan_dangling name value rest rest' hrest hr

theorem setenv_dangling (name : String) (value : Option String) (environ environ' : Environ)
    (hd : environ_live environ = false) (h : setenv name value environ = .ok environ') :
    environ_live environ' = false := by
  unfold setenv at h
  split at h
  · cases value with
    | none => simp at h
    | some v => exact setenv_scan_dangling name v environ environ' hd h
  · simp only [Except.ok.injEq] at h
    subst h
    exact hd

theorem unsetenv_dangling (name : String) :
    ∀ environ : Environ, environ_live environ = false →
      unsetenv name environ = .error .use_after_free
  | [], hd => by simp [environ_live] at hd
  | .freed :: _, _ => rfl
  | .var n v :: rest, hd => by
    have hrest : environ_live rest = false := by simpa [environ_live] using hd
    simp [unsetenv, unsetenv_dangling name rest hrest]

theorem putenv_list_dangling :
    ∀ (list : List String) (environ environ' : Environ), environ_live environ = false →
      putenv_list list environ = .ok environ' → environ_live environ' = false
  | [], environ, environ', hd, h => by
    simp only [putenv_list, Except.ok.injEq] at h
    subst h
    exact hd
  | string :: rest, environ, environ', hd, h => by
    rw [putenv_list] at h
    cases h1 : putenv_and_free string environ with
    | error e => simp [h1] at h
    | ok e1 =>
      simp only [h1] at h
      have hd1 : environ_live e1 = false := by
        unfold putenv_and_free at h1
        split at h1
        · exact putenv_scan_dangling _ _ _ h1
        · rw [unsetenv_dangling string environ hd] at h1
          simp at h1
      exact putenv_list_dangling rest e1 environ' hd1 h

theorem putenv_list_leaves_dangling :
    ∀ (list : List String) (environ environ' : Environ),
      (∃ string ∈ list, '=' ∈ string.data) →
      putenv_list list environ = .ok environ' → environ_live environ' = false
  | [], _, _, hs, _ => by simp at hs
  | string :: rest, environ, environ', hs, h => by
    rw [putenv_list] at h
    cases h1 : putenv_and_free string environ with
    | error e => simp [h1] at h
    | ok e1 =>
      simp only [h1] at h
      by_cases he : '=' ∈ string.data
      · have hd1 : environ_live e1 = false := by
          unfold putenv_and_free at h1
          simp only [he, if_true] at h1
          exact putenv_scan_dangling _ _ _ h1
        exact putenv_list_dangling rest e1 environ' hd1 h
      · have hs' : ∃ s ∈ rest, '=' ∈ s.data := by
          obtain ⟨s, hmem, hse⟩ := hs
          rcases List.mem_cons.1 hmem with hm | hm
          · subst hm
            exact absurd hse he
          · exact ⟨s, hm, hse⟩
        exact putenv_list_leaves_dangling rest e1 environ' hs' h

theorem setenv_list_dangling :
    ∀ (l : List (String × String)) (environ environ' : Environ),
      environ_live environ = false →
      setenv_list l environ = .ok environ' → environ_live environ' = false
  | [], environ, environ', hd, h => by
    simp only [setenv_list, Except.ok.injEq] at h
    subst h
    exact hd
  | (k, v) :: rest, environ, environ', hd, h => by
    rw [setenv_list] at h
    cases h1 : setenv k (some v) environ with
    | error e => simp [h1] at h
    | ok e1 =>
      simp only [h1] at h
      exact setenv_list_dangling rest e1 environ' (setenv_dangling k (some v) environ e1 hd h1) h

/-- What `_set_environment` does when PAM supplies a variable: for every PAM
environment list with a string `name=value`, every inherited environment and
every session, either the run ends in a read of a freed block or the
environment it leaves has an entry that points to a freed block. -/
theorem set_environment_leaves_dangling (list : List String) (home shell : Option String)
    (priv : TlmSession) (environ environ' : Environ)
    (h_pam : ∃ string ∈ list, '=' ∈ string.data)
    (h : _set_environment (some list) home shell priv environ = .ok environ') :
    environ_live environ' = false := by
  simp only [_set_environment, bind, Except.bind, pure, Except.pure] at h
  cases h0 : putenv_list list environ with
  | error e => simp [h0] at h
  | ok e0 =>
    have d0 := putenv_list_leaves_dangling list environ e0 h_pam h0
    simp only [h0] at h
    cases h1 : setenv "PATH" (some (match tlm_config_get_string priv.config
        (some TLM_CONFIG_GENERAL) (some TLM_CONFIG_GENERAL_SESSION_PATH) with
        | some path => path
        | none => "/usr/local/bin:/usr/bin:/bin")) e0 with
    | error e => simp [h1] at h
    | ok e1 =>
      have d1 := setenv_dangling _ _ _ _ d0 h1
      simp only [h1] at h
      cases h2 : setenv "USER" priv.username e1 with
      | error e => simp [h2] at h
      | ok e2 =>
        have d2 := setenv_dangling _ _ _ _ d1 h2
        simp only [h2] at h
        cases h3 : setenv "LOGNAME" priv.username e2 with
        | error e => simp [h3] at h
        | ok e3 =>
          have d3 := setenv_dangling _ _ _ _ d2 h3
          simp only [h3] at h
          cases h4 : setenv "HOME" home e3 with
          | error e => simp [h4] at h
          | ok e4 =>
            have d4 := setenv_dangling _ _ _ _ d3 h4
            simp only [h4] at h
            cases h5 : setenv "SHELL" shell e4 with
            | error e => simp [h5] at h
            | ok e5 =>
              have d5 := setenv_dangling _ _ _ _ d4 h5
              simp only [h5] at h
              cases h6 : setenv "XDG_SEAT" priv.seat_id e5 with
              | error e => simp [h6] at h
              | ok e6 =>
                have d6 := setenv_dangling _ _ _ _ d5 h6
                simp only [h6] at h
                cases h7 : setenv "XDG_DATA_DIRS" (some (match tlm_config_get_string priv.config
                    (some TLM_CONFIG_GENERAL) (some TLM_CONFIG_GENERAL_DATA_DIRS) with
                    | some dirs => dirs
                    | none => "/usr/share:/usr/local/share")) e6 with
                | error e => simp [h7] at h
                | ok e7 =>
                  have d7 := setenv_dangling _ _ _ _ d6 h7
                  simp only [h7] at h
                  cases hh : priv.env_hash with
                  | none =>
                    simp only [hh, Except.ok.injEq] at h
                    subst h
                    exact d7
                  | some env_hash =>
                    simp only [hh] at h
                    exact setenv_list_dangling env_hash e7 environ' d7 h

/-- C21 fails: with `LANG=C` as the PAM environment list and the environment
of the daemon of `alice`, `putenv` stores the pointer to the string, `g_free`
frees the block, and the scan of `setenv ("USER", ...)` reads the freed block,
where the rule of precedence gives `LANG` the value `C`. In an environment
that has the seven fixed names already, `_set_environment` returns and leaves
the freed block as the entry of `LANG`: reading `LANG` there reads the freed
block. -/
theorem set_environment_frees_pam_strings :
    _set_environment (some ["LANG=C"]) (some "/home/alice") (some "/bin/bash") alice_session
        alice_child_os.environ
      = .error .use_after_free ∧
    environment_ref []
        (fixed_environment scenario_config "alice" "/home/alice" "/bin/bash" "seat0")
        [("LANG", "C")] none "LANG"
      = some "C" ∧
    _set_environment (some ["LANG=C"]) (some "/home/alice") (some "/bin/bash") alice_session
        daemon_environ
      = .ok [.var "PATH" "/usr/local/bin:/usr/bin:/bin", .var "USER" "alice",
             .var "LOGNAME" "alice", .var "HOME" "/home/alice", .var "SHELL" "/bin/bash",
             .var "XDG_SEAT" "seat0", .var "XDG_DATA_DIRS" "/usr/share:/usr/local/share",
             .freed] ∧
    getenv "LANG"
        [.var "PATH" "/usr/local/bin:/usr/bin:/bin", .var "USER" "alice",
         .var "LOGNAME" "alice", .var "HOME" "/home/alice", .var "SHELL" "/bin/bash",
         .var "XDG_SEAT" "seat0", .var "XDG_DATA_DIRS" "/usr/share:/usr/local/share",
         .freed]
      = .error .use_after_free := by
  decide

end Tlm
